import Mathlib

/-! Account identity service: embedding and verified properties.

A shallow embedding of the account service (`internal/domain`, `internal/service/account`,
`internal/adapters/grpcapi`, `internal/adapters/repository`) and theorems about it.

Go strings are byte sequences; they are modelled as lists of byte values.  Go `error`
values are modelled as trees built from leaf errors, `fmt.Errorf("...%w", e)` and
`errors.Join`.  Stateful collaborators (the repository behind the service, the random
source, the UUID generator) are state transformers over an abstract world state.
-/

namespace AccountSvc

/-! ## Strings -/

/-- A Go `string`: an immutable sequence of bytes (each entry is a byte value). -/
abbrev GoString := List Nat

/-- UTF-8 encoding of one code point (the bytes a Go string literal holds for it). -/
def utf8Bytes (c : Nat) : List Nat :=
  if c < 0x80 then [c]
  else if c < 0x800 then [0xC0 + c / 64, 0x80 + c % 64]
  else if c < 0x10000 then [0xE0 + c / 4096, 0x80 + c / 64 % 64, 0x80 + c % 64]
  else [0xF0 + c / 262144, 0x80 + c / 4096 % 64, 0x80 + c / 64 % 64, 0x80 + c % 64]

/-- The Go string written as the literal `s`. -/
def go (s : String) : GoString :=
  s.toList.flatMap (fun c => utf8Bytes c.toNat)

/-! ### `strings.TrimSpace`

`strings.TrimSpace` removes every leading and trailing Unicode white-space rune
(`unicode.IsSpace`).  Go decodes a string rune by rune; a position decodes to a
white-space rune exactly when the bytes there are the UTF-8 encoding of one, and an
undecodable byte is `utf8.RuneError`, which is not white space.  So trimming works on
the byte patterns below. -/

/-- Width in bytes of the white-space rune encoded at the head of `s`, or `0` when the
head of `s` does not decode to a rune with `unicode.IsSpace`:
`'\t' '\n' '\v' '\f' '\r' ' '`, U+0085, U+00A0, U+1680, U+2000..U+200A, U+2028, U+2029,
U+202F, U+205F, U+3000. -/
def leadingSpaceWidth : GoString → Nat
  | [] => 0
  | b0 :: rest =>
    if b0 = 0x09 ∨ b0 = 0x0A ∨ b0 = 0x0B ∨ b0 = 0x0C ∨ b0 = 0x0D ∨ b0 = 0x20 then 1
    else match rest with
      | [] => 0
      | b1 :: rest2 =>
        if b0 = 0xC2 ∧ (b1 = 0x85 ∨ b1 = 0xA0) then 2
        else match rest2 with
          | [] => 0
          | b2 :: _ =>
            if b0 = 0xE1 ∧ b1 = 0x9A ∧ b2 = 0x80 then 3
            else if b0 = 0xE2 ∧ b1 = 0x80 ∧
                ((0x80 ≤ b2 ∧ b2 ≤ 0x8A) ∨ b2 = 0xA8 ∨ b2 = 0xA9 ∨ b2 = 0xAF) then 3
            else if b0 = 0xE2 ∧ b1 = 0x81 ∧ b2 = 0x9F then 3
            else if b0 = 0xE3 ∧ b1 = 0x80 ∧ b2 = 0x80 then 3
            else 0

/-- Width in bytes of the white-space rune encoded at the end of the string whose
reversal is `r` (so the head of `r` is the last byte), or `0` when the last rune is not
white space. -/
def trailingSpaceWidth : GoString → Nat
  | [] => 0
  | b0 :: rest =>
    if b0 = 0x09 ∨ b0 = 0x0A ∨ b0 = 0x0B ∨ b0 = 0x0C ∨ b0 = 0x0D ∨ b0 = 0x20 then 1
    else match rest with
      | [] => 0
      | b1 :: rest2 =>
        if b1 = 0xC2 ∧ (b0 = 0x85 ∨ b0 = 0xA0) then 2
        else match rest2 with
          | [] => 0
          | b2 :: _ =>
            if b2 = 0xE1 ∧ b1 = 0x9A ∧ b0 = 0x80 then 3
            else if b2 = 0xE2 ∧ b1 = 0x80 ∧
                ((0x80 ≤ b0 ∧ b0 ≤ 0x8A) ∨ b0 = 0xA8 ∨ b0 = 0xA9 ∨ b0 = 0xAF) then 3
            else if b2 = 0xE2 ∧ b1 = 0x81 ∧ b0 = 0x9F then 3
            else if b2 = 0xE3 ∧ b1 = 0x80 ∧ b0 = 0x80 then 3
            else 0

/-- Drop runes from the head while `width` reports one; `fuel` bounds the number of
runes dropped (the length of the string is always enough). -/
def dropRunes (width : GoString → Nat) : Nat → GoString → GoString
  | 0, s => s
  | fuel + 1, s =>
    if width s = 0 then s else dropRunes width fuel (s.drop (width s))

/-- `strings.TrimLeftFunc(s, unicode.IsSpace)`. -/
def TrimLeftSpace (s : GoString) : GoString :=
  dropRunes leadingSpaceWidth s.length s

/-- `strings.TrimRightFunc(s, unicode.IsSpace)`. -/
def TrimRightSpace (s : GoString) : GoString :=
  (dropRunes trailingSpaceWidth s.length s.reverse).reverse

/-- `strings.TrimSpace(s)`. -/
def TrimSpace (s : GoString) : GoString :=
  TrimRightSpace (TrimLeftSpace s)

/-! ### Regular expressions

The two patterns of the service are anchored on both sides (`^` ... `$`, no flags, so
the whole text must match) and are a sequence of character classes, each with a
repetition range.  A pattern is kept as data and matched by trying every split.  All
classes are ASCII, so a text matches rune-wise exactly when it matches byte-wise: a
byte `≥ 0x80` belongs to a rune outside every class. -/

/-- One element `[class]{min,max}` of a pattern; the class is a list of inclusive
ranges of code points. -/
structure Item where
  ranges : List (Nat × Nat)
  min : Nat
  max : Nat

/-- Membership of a code point in a character class. -/
def inClass (ranges : List (Nat × Nat)) (c : Nat) : Bool :=
  ranges.any (fun r => decide (r.1 ≤ c) && decide (c ≤ r.2))

/-- Whole-text match of a sequence of items: some `k` in `min..max` leading characters
are in the class of the first item and the rest matches the remaining items. -/
def matchItems : List Item → GoString → Bool
  | [], s => s.isEmpty
  | it :: rest, s =>
    (List.range (it.max + 1)).any (fun k =>
      decide (it.min ≤ k) && decide (k ≤ s.length) && (s.take k).all (inClass it.ranges)
        && matchItems rest (s.drop k))

/-! ## Domain (`internal/domain/account.go`) -/

/-- The five package-level error values of package `domain`.  Each is a distinct
pointer made by `errors.New`; comparing with `==` compares identity, not text. -/
inductive DomainErr
  | ErrInvalidNick
  | ErrInvalidPhone
  | ErrNickAlreadyExists
  | ErrPhoneAlreadyExists
  | ErrAccountNotFound
  deriving DecidableEq, Repr

/-- Text given to `errors.New` for each domain error. -/
def DomainErr.text : DomainErr → GoString
  | .ErrInvalidNick => go "invalid nick"
  | .ErrInvalidPhone => go "invalid phone"
  | .ErrNickAlreadyExists => go "nick already exists"
  | .ErrPhoneAlreadyExists => go "phone already exists"
  | .ErrAccountNotFound => go "account not found"

/-- A non-nil Go `error` value, as far as `==`, `errors.Is` and `Error()` can tell:
one of the domain values, an error value made outside package `domain` that wraps
nothing (driver, network, random source; only its text is kept), an error made by
`fmt.Errorf(pfx + "%w", inner)`, or `errors.Join(a, b)`.  Error types that define
their own `Is` method are not modelled.  A nil `error` is `none` of `Option GoError`. -/
inductive GoError
  | domain (e : DomainErr)
  | foreign (msg : GoString)
  | wrap (pfx : GoString) (inner : GoError)
  | join (a b : GoError)
  deriving DecidableEq, Repr

namespace domain

abbrev ErrInvalidNick : GoError := .domain .ErrInvalidNick
abbrev ErrInvalidPhone : GoError := .domain .ErrInvalidPhone
abbrev ErrNickAlreadyExists : GoError := .domain .ErrNickAlreadyExists
abbrev ErrPhoneAlreadyExists : GoError := .domain .ErrPhoneAlreadyExists
abbrev ErrAccountNotFound : GoError := .domain .ErrAccountNotFound

end domain

/-- The method `err.Error()`. -/
def GoError.Error : GoError → GoString
  | .domain e => e.text
  | .foreign msg => msg
  | .wrap pfx inner => pfx ++ inner.Error
  | .join a b => a.Error ++ go "\n" ++ b.Error

/-- The call `errors.Is(err, target)` for a domain error `target`: `err` is the target
itself, or unwrapping it (through `Unwrap() error` and `Unwrap() []error`) reaches
the target. -/
def errorsIs : GoError → DomainErr → Bool
  | .domain e, target => decide (e = target)
  | .foreign _, _ => false
  | .wrap _ inner, target => errorsIs inner target
  | .join a b, target => errorsIs a target || errorsIs b target

/-- A `uuid.UUID`: 16 bytes. -/
abbrev UUID := List Nat

/-- The value `uuid.Nil`, the zero UUID. -/
def uuidNil : UUID := List.replicate 16 0

/-- A `time.Time`, as nanoseconds since the zero `time.Time` (January 1, year 1 UTC). -/
abbrev Time := Int

/-- The struct `domain.Account`. -/
structure Account where
  ID : UUID
  Nick : GoString
  Phone : GoString
  CreatedAt : Time
  UpdatedAt : Time
  DeletedAt : Option Time
  deriving DecidableEq, Repr

/-- The zero value `domain.Account{}`. -/
def Account.zero : Account :=
  { ID := uuidNil, Nick := [], Phone := [], CreatedAt := 0, UpdatedAt := 0, DeletedAt := none }

/-! ## Identity service (`internal/service/account/service.go`) -/

def maxNickGenerationAttempts : Nat := 10

/-- The pattern `^@[a-zA-Z0-9_]{2,30}$`. -/
def nickPattern : List Item :=
  [⟨[(64, 64)], 1, 1⟩, ⟨[(97, 122), (65, 90), (48, 57), (95, 95)], 2, 30⟩]

/-- The pattern `^\+[1-9][0-9]{7,14}$`. -/
def phonePattern : List Item :=
  [⟨[(43, 43)], 1, 1⟩, ⟨[(49, 57)], 1, 1⟩, ⟨[(48, 57)], 7, 14⟩]

/-- The interface `Repository` of the service, over a world state `σ`: every method
may read and change the world and returns the Go result pair. -/
structure Repository (σ : Type) where
  Create : UUID → GoString → GoString → σ → (Account × Option GoError) × σ
  GetByID : UUID → σ → (Account × Option GoError) × σ
  UpdateNick : UUID → GoString → σ → (Account × Option GoError) × σ
  Delete : UUID → σ → Option GoError × σ

/-- The ambient sources the service draws from.  `uuidNew` is `uuid.New()`.
`randRead` is `crypto/rand.Read` on a 10-byte buffer: it returns the bytes it wrote
(byte `i` of the buffer becomes `bytes i % 256`) and the error. -/
structure Sources (σ : Type) where
  uuidNew : σ → UUID × σ
  randRead : σ → ((Nat → Nat) × Option GoError) × σ

def isValidNick (nick : GoString) : Bool :=
  matchItems nickPattern nick

def isValidPhone (phone : GoString) : Bool :=
  matchItems phonePattern phone

/-- The constant `alphabet` of `generateNick`. -/
def alphabet : GoString := go "abcdefghijklmnopqrstuvwxyz0123456789"

/-- The function `generateNick`: read 10 random bytes, map each to
`alphabet[b % len(alphabet)]`, prepend `@`. -/
def generateNick {σ : Type} (src : Sources σ) (w : σ) : (GoString × Option GoError) × σ :=
  let r := src.randRead w
  match r.1.2 with
  | some err => (([], some err), r.2)
  | none =>
    let buf := (List.range 10).map (fun i => r.1.1 i % 256)
    ((go "@" ++ buf.map (fun b => alphabet.getD (b % alphabet.length) 0), none), r.2)

/-- The loop `for range maxNickGenerationAttempts` of `Service.Create` with `n`
iterations left; falling out of the loop returns `ErrNickAlreadyExists`. -/
def createLoop {σ : Type} (repo : Repository σ) (src : Sources σ) (id : UUID)
    (phone : GoString) : Nat → σ → (Account × Option GoError) × σ
  | 0, w => ((Account.zero, some domain.ErrNickAlreadyExists), w)
  | n + 1, w =>
    let g := generateNick src w
    match g.1.2 with
    | some err => ((Account.zero, some err), g.2)
    | none =>
      let r := repo.Create id g.1.1 phone g.2
      match r.1.2 with
      | none => ((r.1.1, none), r.2)
      | some err =>
        if err = domain.ErrNickAlreadyExists then createLoop repo src id phone n r.2
        else ((Account.zero, some err), r.2)

namespace Service

/-- The method `Service.Create`. -/
def Create {σ : Type} (repo : Repository σ) (src : Sources σ) (phone : GoString) (w : σ) :
    (Account × Option GoError) × σ :=
  let phone := TrimSpace phone
  if !isValidPhone phone then ((Account.zero, some domain.ErrInvalidPhone), w)
  else
    let u := src.uuidNew w
    createLoop repo src u.1 phone maxNickGenerationAttempts u.2

/-- The method `Service.GetByID`. -/
def GetByID {σ : Type} (repo : Repository σ) (id : UUID) (w : σ) :
    (Account × Option GoError) × σ :=
  repo.GetByID id w

/-- The method `Service.UpdateNick`. -/
def UpdateNick {σ : Type} (repo : Repository σ) (id : UUID) (nick : GoString) (w : σ) :
    (Account × Option GoError) × σ :=
  let nick := TrimSpace nick
  if !isValidNick nick then ((Account.zero, some domain.ErrInvalidNick), w)
  else repo.UpdateNick id nick w

/-- The method `Service.Delete`. -/
def Delete {σ : Type} (repo : Repository σ) (id : UUID) (w : σ) : Option GoError × σ :=
  repo.Delete id w

end Service

/-! ## Storage adapter (`internal/adapters/repository/repository.go`) -/

/-- A failure reported by `database/sql` or the `lib/pq` driver, as far as the adapter
inspects it: its text, whether `errors.Is(err, sql.ErrNoRows)` holds, and the `Code`
and `Constraint` of the `*pq.Error` that `errors.As` finds, if any.  Such an error is
made outside package `domain`, so it is none of the domain values and wraps none. -/
structure DriverErr where
  text : GoString
  isNoRows : Bool
  asPq : Option (GoString × GoString)

/-- The driver failure as a Go `error` value. -/
def DriverErr.toError (e : DriverErr) : GoError :=
  .foreign e.text

/-- What the adapter holds: the database handle, one executor per statement of the
adapter, and the metrics sink.  `insertAccount`, `selectActive` and `updateNick` are
`QueryRowContext(...).Scan(...)` of the respective statement; `softDelete` is
`ExecContext` followed by `RowsAffected`; `ObserveDB` is `r.metrics.ObserveDB(method,
status, elapsed)` (the elapsed time is not modelled). -/
structure Store (σ : Type) where
  insertAccount : UUID → GoString → GoString → σ → Except DriverErr Account × σ
  selectActive : UUID → σ → Except DriverErr Account × σ
  updateNick : UUID → GoString → σ → Except DriverErr Account × σ
  softDelete : UUID → σ → Except DriverErr (Except DriverErr Int) × σ
  ObserveDB : GoString → GoString → σ → σ

namespace repository

/-- The method `Repository.Create`; the deferred observation runs last, with the final
value of `status`. -/
def Create {σ : Type} (st : Store σ) (id : UUID) (nick phone : GoString) (w : σ) :
    (Account × Option GoError) × σ :=
  let r := st.insertAccount id nick phone w
  match r.1 with
  | .error err =>
    match err.asPq with
    | some (code, constraint) =>
      if code = go "23505" then
        if constraint = go "accounts_nick_key" then
          ((Account.zero, some domain.ErrNickAlreadyExists),
            st.ObserveDB (go "create") (go "conflict") r.2)
        else if constraint = go "accounts_phone_key" then
          ((Account.zero, some domain.ErrPhoneAlreadyExists),
            st.ObserveDB (go "create") (go "conflict") r.2)
        else
          ((Account.zero, some domain.ErrNickAlreadyExists),
            st.ObserveDB (go "create") (go "conflict") r.2)
      else
        ((Account.zero, some (.wrap (go "create account: ") err.toError)),
          st.ObserveDB (go "create") (go "error") r.2)
    | none =>
      ((Account.zero, some (.wrap (go "create account: ") err.toError)),
        st.ObserveDB (go "create") (go "error") r.2)
  | .ok a => ((a, none), st.ObserveDB (go "create") (go "ok") r.2)

/-- The method `Repository.GetByID`. -/
def GetByID {σ : Type} (st : Store σ) (id : UUID) (w : σ) : (Account × Option GoError) × σ :=
  let r := st.selectActive id w
  match r.1 with
  | .error err =>
    if err.isNoRows then
      ((Account.zero, some domain.ErrAccountNotFound),
        st.ObserveDB (go "get_by_id") (go "not_found") r.2)
    else
      ((Account.zero, some (.wrap (go "get account: ") err.toError)),
        st.ObserveDB (go "get_by_id") (go "error") r.2)
  | .ok a => ((a, none), st.ObserveDB (go "get_by_id") (go "ok") r.2)

/-- The method `Repository.UpdateNick`. -/
def UpdateNick {σ : Type} (st : Store σ) (id : UUID) (nick : GoString) (w : σ) :
    (Account × Option GoError) × σ :=
  let r := st.updateNick id nick w
  match r.1 with
  | .error err =>
    if err.isNoRows then
      ((Account.zero, some domain.ErrAccountNotFound),
        st.ObserveDB (go "update_nick") (go "not_found") r.2)
    else if (err.asPq.map Prod.fst) = some (go "23505") then
      ((Account.zero, some domain.ErrNickAlreadyExists),
        st.ObserveDB (go "update_nick") (go "conflict") r.2)
    else
      ((Account.zero, some (.wrap (go "update nick: ") err.toError)),
        st.ObserveDB (go "update_nick") (go "error") r.2)
  | .ok a => ((a, none), st.ObserveDB (go "update_nick") (go "ok") r.2)

/-- The method `Repository.Delete`. -/
def Delete {σ : Type} (st : Store σ) (id : UUID) (w : σ) : Option GoError × σ :=
  let r := st.softDelete id w
  match r.1 with
  | .error err =>
    (some (.wrap (go "delete account: ") err.toError),
      st.ObserveDB (go "delete") (go "error") r.2)
  | .ok (.error err) =>
    (some (.wrap (go "delete account rows affected: ") err.toError),
      st.ObserveDB (go "delete") (go "error") r.2)
  | .ok (.ok rows) =>
    if rows = 0 then
      (some domain.ErrAccountNotFound, st.ObserveDB (go "delete") (go "not_found") r.2)
    else (none, st.ObserveDB (go "delete") (go "ok") r.2)

/-- The adapter as the `Repository` the service is given (`accountsvc.New(repo)`). -/
def New {σ : Type} (st : Store σ) : Repository σ where
  Create := Create st
  GetByID := GetByID st
  UpdateNick := UpdateNick st
  Delete := Delete st

end repository

/-! ## Request handler (`internal/adapters/grpcapi/server.go`) -/

/-- The status codes of `google.golang.org/grpc/codes`. -/
inductive Code
  | OK | Canceled | Unknown | InvalidArgument | DeadlineExceeded | NotFound
  | AlreadyExists | PermissionDenied | ResourceExhausted | FailedPrecondition | Aborted
  | OutOfRange | Unimplemented | Internal | Unavailable | DataLoss | Unauthenticated
  deriving DecidableEq, Repr

/-- The error made by `status.Error(code, message)`. -/
structure Status where
  code : Code
  message : GoString
  deriving DecidableEq, Repr

/-- The function `mapDomainError`, for a non-nil `err`. -/
def mapDomainError (err : GoError) : Status :=
  if errorsIs err .ErrInvalidNick then ⟨.InvalidArgument, err.Error⟩
  else if errorsIs err .ErrInvalidPhone then ⟨.InvalidArgument, err.Error⟩
  else if errorsIs err .ErrNickAlreadyExists then ⟨.AlreadyExists, err.Error⟩
  else if errorsIs err .ErrPhoneAlreadyExists then ⟨.AlreadyExists, err.Error⟩
  else if errorsIs err .ErrAccountNotFound then ⟨.NotFound, err.Error⟩
  else ⟨.Internal, go "internal server error"⟩

/-- A `timestamppb.Timestamp`. -/
structure Timestamp where
  Seconds : Int
  Nanos : Int
  deriving DecidableEq, Repr

/-- The function `timestamppb.New(t)`: Unix seconds and the nanoseconds within the
second; the zero `time.Time` lies 62135596800 seconds before the Unix epoch. -/
def timestampNew (t : Time) : Timestamp :=
  ⟨Int.fdiv t 1000000000 - 62135596800, Int.fmod t 1000000000⟩

/-- Lower-case hexadecimal text of a byte sequence (`hex.Encode`). -/
def hexEncode (bs : List Nat) : GoString :=
  bs.flatMap (fun b => [(go "0123456789abcdef").getD (b / 16 % 16) 0,
    (go "0123456789abcdef").getD (b % 16) 0])

/-- The method `UUID.String()`: `xxxxxxxx-xxxx-xxxx-xxxx-xxxxxxxxxxxx`. -/
def uuidString (u : UUID) : GoString :=
  hexEncode (u.take 4) ++ go "-" ++ hexEncode ((u.drop 4).take 2) ++ go "-" ++
    hexEncode ((u.drop 6).take 2) ++ go "-" ++ hexEncode ((u.drop 8).take 2) ++ go "-" ++
    hexEncode ((u.drop 10).take 6)

/-- Value of one hexadecimal digit, `none` for any other byte. -/
def hexVal (c : Nat) : Option Nat :=
  if 48 ≤ c ∧ c ≤ 57 then some (c - 48)
  else if 97 ≤ c ∧ c ≤ 102 then some (c - 87)
  else if 65 ≤ c ∧ c ≤ 70 then some (c - 55)
  else none

/-- Decode a text of hexadecimal digit pairs into bytes. -/
def hexDecode : List Nat → Option (List Nat)
  | [] => some []
  | [_] => none
  | a :: b :: rest =>
    match hexVal a, hexVal b, hexDecode rest with
    | some x, some y, some bs => some ((16 * x + y) :: bs)
    | _, _, _ => none

/-- ASCII lower-casing of a byte. -/
def asciiLower (c : Nat) : Nat :=
  if 65 ≤ c ∧ c ≤ 90 then c + 32 else c

/-- Parse the 36-byte form `xxxxxxxx-xxxx-xxxx-xxxx-xxxxxxxxxxxx` at the head of `s`. -/
def uuidParseDashed (s : GoString) : Option UUID :=
  if s.getD 8 0 = 45 ∧ s.getD 13 0 = 45 ∧ s.getD 18 0 = 45 ∧ s.getD 23 0 = 45 then
    hexDecode ((s.take 8) ++ ((s.drop 9).take 4) ++ ((s.drop 14).take 4) ++
      ((s.drop 19).take 4) ++ ((s.drop 24).take 12))
  else none

/-- The library function `uuid.Parse` of `github.com/google/uuid`, which is outside
this repository: it dispatches on the length of the text (36: dashed form, 45: with
the prefix `urn:uuid:`, 38: dashed form between two enclosing bytes, 32: plain
hexadecimal) and fails on every other length.  `none` stands for a non-nil error. -/
def uuidParse (s : GoString) : Option UUID :=
  if s.length = 36 then uuidParseDashed s
  else if s.length = 45 then
    if (s.take 9).map asciiLower = go "urn:uuid:" then uuidParseDashed (s.drop 9) else none
  else if s.length = 38 then uuidParseDashed (s.drop 1)
  else if s.length = 32 then hexDecode s
  else none

/-- The message `accountv1.Account`. -/
structure ProtoAccount where
  Id : GoString
  Nick : GoString
  Phone : GoString
  CreatedAt : Option Timestamp
  UpdatedAt : Option Timestamp
  DeletedAt : Option Timestamp
  deriving DecidableEq, Repr

/-- The message `accountv1.AccountResponse`. -/
structure AccountResponse where
  Account : ProtoAccount
  deriving DecidableEq, Repr

/-- The function `toProtoAccount`. -/
def toProtoAccount (acc : Account) : ProtoAccount :=
  { Id := uuidString acc.ID
    Nick := acc.Nick
    Phone := acc.Phone
    CreatedAt := some (timestampNew acc.CreatedAt)
    UpdatedAt := some (timestampNew acc.UpdatedAt)
    DeletedAt := acc.DeletedAt.map timestampNew }

/-- The methods of `*accountsvc.Service` that the handlers call. -/
structure ServiceAPI (σ : Type) where
  Create : GoString → σ → (Account × Option GoError) × σ
  GetByID : UUID → σ → (Account × Option GoError) × σ
  UpdateNick : UUID → GoString → σ → (Account × Option GoError) × σ
  Delete : UUID → σ → Option GoError × σ

/-- The service over a repository (`accountsvc.New(repo)`) with its ambient sources. -/
def Service.New {σ : Type} (repo : Repository σ) (src : Sources σ) : ServiceAPI σ where
  Create := Service.Create repo src
  GetByID := Service.GetByID repo
  UpdateNick := Service.UpdateNick repo
  Delete := Service.Delete repo

/-- The struct `Server`: the service it calls, and the library parser `uuid.Parse`
(`none` for a non-nil error) that `parseID` uses. -/
structure Server (σ : Type) where
  svc : ServiceAPI σ
  uuidParse : GoString → Option UUID

/-- The function `parseID`. -/
def parseID (parse : GoString → Option UUID) (raw : GoString) : UUID × Option Status :=
  match parse raw with
  | none => (uuidNil, some ⟨.InvalidArgument, go "invalid account id"⟩)
  | some id => (id, none)

namespace Server

/-- The handler `Server.CreateAccount`, given `req.GetPhone()`. -/
def CreateAccount {σ : Type} (s : Server σ) (phone : GoString) (w : σ) :
    (Option AccountResponse × Option Status) × σ :=
  let r := s.svc.Create phone w
  match r.1.2 with
  | some err => ((none, some (mapDomainError err)), r.2)
  | none => ((some ⟨toProtoAccount r.1.1⟩, none), r.2)

/-- The handler `Server.GetAccount`, given `req.GetId()`. -/
def GetAccount {σ : Type} (s : Server σ) (rawId : GoString) (w : σ) :
    (Option AccountResponse × Option Status) × σ :=
  let p := parseID s.uuidParse rawId
  match p.2 with
  | some err => ((none, some err), w)
  | none =>
    let r := s.svc.GetByID p.1 w
    match r.1.2 with
    | some err => ((none, some (mapDomainError err)), r.2)
    | none => ((some ⟨toProtoAccount r.1.1⟩, none), r.2)

/-- The handler `Server.UpdateNick`, given `req.GetId()` and `req.GetNick()`. -/
def UpdateNick {σ : Type} (s : Server σ) (rawId nick : GoString) (w : σ) :
    (Option AccountResponse × Option Status) × σ :=
  let p := parseID s.uuidParse rawId
  match p.2 with
  | some err => ((none, some err), w)
  | none =>
    let r := s.svc.UpdateNick p.1 nick w
    match r.1.2 with
    | some err => ((none, some (mapDomainError err)), r.2)
    | none => ((some ⟨toProtoAccount r.1.1⟩, none), r.2)

/-- The handler `Server.DeleteAccount`, given `req.GetId()`; `some ()` is the
`emptypb.Empty` response. -/
def DeleteAccount {σ : Type} (s : Server σ) (rawId : GoString) (w : σ) :
    (Option Unit × Option Status) × σ :=
  let p := parseID s.uuidParse rawId
  match p.2 with
  | some err => ((none, some err), w)
  | none =>
    let r := s.svc.Delete p.1 w
    match r.1 with
    | some err => ((none, some (mapDomainError err)), r.2)
    | none => ((some (), none), r.2)

end Server

/-! ### Observing repository calls

A repository is instrumented, as the fakes of the test suite do, by pairing the world
with a log of the calls received. -/

/-- One call received by a repository, with its arguments. -/
inductive Call
  | Create (id : UUID) (nick phone : GoString)
  | GetByID (id : UUID)
  | UpdateNick (id : UUID) (nick : GoString)
  | Delete (id : UUID)
  deriving DecidableEq, Repr

/-- The log of an instrumented repository: each call received, in order, with the
error it returned (`none` for a nil error). -/
abbrev Log := List (Call × Option GoError)

/-- The repository `repo`, recording every call it receives at the end of the log. -/
def Repository.logged {σ : Type} (repo : Repository σ) : Repository (σ × Log) where
  Create id nick phone w :=
    let r := repo.Create id nick phone w.1
    (r.1, (r.2, w.2 ++ [(Call.Create id nick phone, r.1.2)]))
  GetByID id w :=
    let r := repo.GetByID id w.1
    (r.1, (r.2, w.2 ++ [(Call.GetByID id, r.1.2)]))
  UpdateNick id nick w :=
    let r := repo.UpdateNick id nick w.1
    (r.1, (r.2, w.2 ++ [(Call.UpdateNick id nick, r.1.2)]))
  Delete id w :=
    let r := repo.Delete id w.1
    (r.1, (r.2, w.2 ++ [(Call.Delete id, r.1)]))

/-- The sources `src` beside a call log, which they leave alone. -/
def Sources.logged {σ : Type} (src : Sources σ) : Sources (σ × Log) where
  uuidNew w := ((src.uuidNew w.1).1, ((src.uuidNew w.1).2, w.2))
  randRead w := ((src.randRead w.1).1, ((src.randRead w.1).2, w.2))

/-! ### Concrete collaborators

Small repositories and sources in the style of the fakes of the test suite
(`fakeRepo`, `grpcRepoStub`); the world state is a counter of the calls so far. -/

/-- A repository whose `Create` answers from a script: call number `i` (from 0)
returns `script[i]`, and `dflt` once the script is used up.  The other methods return
`stub`. -/
def scriptedRepo (script : List (Account × Option GoError)) (dflt stub : Account × Option GoError) :
    Repository Nat where
  Create _ _ _ w := (script.getD w dflt, w + 1)
  GetByID _ w := (stub, w + 1)
  UpdateNick _ _ w := (stub, w + 1)
  Delete _ w := (stub.2, w + 1)

/-- A repository that stores nothing and echoes what it is given, like the fake of
`TestCreateGeneratesNickAndPassesPhoneToRepo`: `Create` and `UpdateNick` return an
account carrying their arguments. -/
def echoRepo : Repository Nat where
  Create id nick phone w :=
    (({ ID := id, Nick := nick, Phone := phone, CreatedAt := 1, UpdatedAt := 1,
        DeletedAt := none }, none), w + 1)
  GetByID id w :=
    (({ ID := id, Nick := go "@nick", Phone := go "+15551234567", CreatedAt := 1,
        UpdatedAt := 1, DeletedAt := none }, none), w + 1)
  UpdateNick id nick w :=
    (({ ID := id, Nick := nick, Phone := go "+15551234567", CreatedAt := 1, UpdatedAt := 2,
        DeletedAt := none }, none), w + 1)
  Delete _ w := (none, w + 1)

/-- Sources that always succeed: the UUID is sixteen times the byte `7`, and the
random bytes of a read depend on the position in the buffer and on the world. -/
def steadySources : Sources Nat where
  uuidNew w := (List.replicate 16 7, w)
  randRead w := ((fun i => 37 * i + w, none), w)

/-- Sources whose random reads fail with the leaf error `failure`. -/
def brokenSources (failure : GoString) : Sources Nat where
  uuidNew w := (List.replicate 16 7, w)
  randRead w := ((fun _ => 0, some (GoError.foreign failure)), w)

/-- An account a repository may hand back next to an error. -/
def strayAccount : Account :=
  { ID := List.replicate 16 9, Nick := go "@stray", Phone := go "+15550000009",
    CreatedAt := 5, UpdatedAt := 5, DeletedAt := none }

/-- A repository whose `Create` reports a nick conflict twice and then a phone
conflict, each time next to a non-zero account. -/
def conflictThenPhoneRepo : Repository Nat :=
  scriptedRepo
    [(strayAccount, some domain.ErrNickAlreadyExists),
     (strayAccount, some domain.ErrNickAlreadyExists),
     (strayAccount, some domain.ErrPhoneAlreadyExists)]
    (Account.zero, none) (Account.zero, none)

/-- The status class that the mapping table of the specification (section 4.3) gives
to each domain error; the code's `mapDomainError` is compared with it. -/
def specStatusClass : DomainErr → Code
  | .ErrInvalidNick => .InvalidArgument
  | .ErrInvalidPhone => .InvalidArgument
  | .ErrNickAlreadyExists => .AlreadyExists
  | .ErrPhoneAlreadyExists => .AlreadyExists
  | .ErrAccountNotFound => .NotFound

/-- The six message texts a status may carry for an error of the adapter. -/
def fixedMessages : List GoString :=
  [go "invalid nick", go "invalid phone", go "nick already exists", go "phone already exists",
   go "account not found", go "internal server error"]

/-- The error `e` is returned, as a non-nil error, by some operation of the storage
adapter, over some store in some state and for some arguments. -/
def returnedByRepository (e : GoError) : Prop :=
  ∃ (σ : Type) (st : Store σ) (id : UUID) (nick phone : GoString) (w : σ),
    (repository.Create st id nick phone w).1.2 = some e ∨
    (repository.GetByID st id w).1.2 = some e ∨
    (repository.UpdateNick st id nick w).1.2 = some e ∨
    (repository.Delete st id w).1 = some e

/-- The driver failure `e` with its text replaced by `f` of it; what `errors.Is` and
`errors.As` find in it is kept. -/
def DriverErr.retext (f : GoString → GoString) (e : DriverErr) : DriverErr :=
  { e with text := f e.text }

/-- The store `st` with the text of every driver failure replaced by `f` of it. -/
def Store.retext {σ : Type} (f : GoString → GoString) (st : Store σ) : Store σ where
  insertAccount id nick phone w :=
    ((st.insertAccount id nick phone w).1.mapError (DriverErr.retext f),
      (st.insertAccount id nick phone w).2)
  selectActive id w :=
    ((st.selectActive id w).1.mapError (DriverErr.retext f), (st.selectActive id w).2)
  updateNick id nick w :=
    ((st.updateNick id nick w).1.mapError (DriverErr.retext f), (st.updateNick id nick w).2)
  softDelete id w :=
    (((st.softDelete id w).1.mapError (DriverErr.retext f)).map
        (Except.mapError (DriverErr.retext f)),
      (st.softDelete id w).2)
  ObserveDB := st.ObserveDB

/-- A store every statement of which fails with the driver error `err`; it observes
nothing. -/
def failingStore (err : DriverErr) : Store Nat where
  insertAccount _ _ _ w := (.error err, w)
  selectActive _ w := (.error err, w)
  updateNick _ _ w := (.error err, w)
  softDelete _ w := (.error err, w)
  ObserveDB _ _ w := w

/-- The service `svc` beside a counter of the calls made to any of its methods. -/
def ServiceAPI.counted {σ : Type} (svc : ServiceAPI σ) : ServiceAPI (σ × Nat) where
  Create phone w := ((svc.Create phone w.1).1, ((svc.Create phone w.1).2, w.2 + 1))
  GetByID id w := ((svc.GetByID id w.1).1, ((svc.GetByID id w.1).2, w.2 + 1))
  UpdateNick id nick w :=
    ((svc.UpdateNick id nick w.1).1, ((svc.UpdateNick id nick w.1).2, w.2 + 1))
  Delete id w := ((svc.Delete id w.1).1, ((svc.Delete id w.1).2, w.2 + 1))

/-! ### The accounts table -/

/-- Modelled from the spec: the relational store behind the adapter, whose engine is
not part of the repository (sections 3 and 6; the schema is the one that
`repository_int_test.go` creates).  One table of account rows keyed by identifier, with
unique constraints on identifier, handle and phone that range over all rows, deleted
ones included; `now` is the clock that `NOW()` reads.  Column length limits and
failures of the connection are not modelled. -/
structure Table where
  rows : List Account
  now : Time
  deriving DecidableEq, Repr

/-- The driver failure `sql.ErrNoRows`. -/
def errNoRows : DriverErr :=
  ⟨go "sql: no rows in result set", true, none⟩

/-- The `*pq.Error` of a unique-violation (SQLSTATE 23505) on the named constraint. -/
def uniqueViolation (constraint : GoString) : DriverErr :=
  ⟨go "pq: duplicate key value violates unique constraint " ++ constraint, false,
    some (go "23505", constraint)⟩

/-- A row is active when its `deleted_at` is null. -/
def Account.active (a : Account) : Bool :=
  a.DeletedAt.isNone

namespace Table

/-- Modelled from the spec: the statement `INSERT INTO accounts (id, nick, phone) VALUES
(...) RETURNING ...` of `Repository.Create`.  The unique constraints are checked
against every row; the new row is active, with both timestamps at `NOW()`. -/
def insertAccount (id : UUID) (nick phone : GoString) (t : Table) :
    Except DriverErr Account × Table :=
  if t.rows.any (fun r => decide (r.ID = id)) then
    (.error (uniqueViolation (go "accounts_pkey")), { t with now := t.now + 1 })
  else if t.rows.any (fun r => decide (r.Nick = nick)) then
    (.error (uniqueViolation (go "accounts_nick_key")), { t with now := t.now + 1 })
  else if t.rows.any (fun r => decide (r.Phone = phone)) then
    (.error (uniqueViolation (go "accounts_phone_key")), { t with now := t.now + 1 })
  else
    let row : Account :=
      { ID := id, Nick := nick, Phone := phone, CreatedAt := t.now, UpdatedAt := t.now,
        DeletedAt := none }
    (.ok row, { rows := t.rows ++ [row], now := t.now + 1 })

/-- Modelled from the spec: the statement `SELECT ... FROM accounts WHERE id = $1 AND
deleted_at IS NULL` of `Repository.GetByID`; scanning an empty result is
`sql.ErrNoRows`. -/
def selectActive (id : UUID) (t : Table) : Except DriverErr Account × Table :=
  match t.rows.find? (fun r => decide (r.ID = id) && r.active) with
  | some row => (.ok row, { t with now := t.now + 1 })
  | none => (.error errNoRows, { t with now := t.now + 1 })

/-- Modelled from the spec: the statement `UPDATE accounts SET nick = $2, updated_at =
NOW() WHERE id = $1 AND deleted_at IS NULL RETURNING ...` of `Repository.UpdateNick`.
Without an active row of that id the result is empty; the new handle must differ from
the handle of every other row. -/
def updateNick (id : UUID) (nick : GoString) (t : Table) : Except DriverErr Account × Table :=
  match t.rows.find? (fun r => decide (r.ID = id) && r.active) with
  | none => (.error errNoRows, { t with now := t.now + 1 })
  | some row =>
    if t.rows.any (fun r => decide (r.Nick = nick) && !(decide (r.ID = id) && r.active)) then
      (.error (uniqueViolation (go "accounts_nick_key")), { t with now := t.now + 1 })
    else
      (.ok { row with Nick := nick, UpdatedAt := t.now },
        { rows := t.rows.map (fun r =>
            if decide (r.ID = id) && r.active then { r with Nick := nick, UpdatedAt := t.now }
            else r),
          now := t.now + 1 })

/-- Modelled from the spec: the statement `UPDATE accounts SET deleted_at = NOW(),
updated_at = NOW() WHERE id = $1 AND deleted_at IS NULL` of `Repository.Delete`,
followed by `RowsAffected`. -/
def softDelete (id : UUID) (t : Table) : Except DriverErr (Except DriverErr Int) × Table :=
  (.ok (.ok ((t.rows.filter (fun r => decide (r.ID = id) && r.active)).length : Int)),
    { rows := t.rows.map (fun r =>
        if decide (r.ID = id) && r.active then
          { r with DeletedAt := some t.now, UpdatedAt := t.now }
        else r),
      now := t.now + 1 })

end Table

/-- The table as the store of the adapter, without a metrics sink. -/
def tableStore : Store Table where
  insertAccount := Table.insertAccount
  selectActive := Table.selectActive
  updateNick := Table.updateNick
  softDelete := Table.softDelete
  ObserveDB _ _ t := t

/-- One call of a method of the adapter, with its arguments. -/
inductive RepoOp
  | Create (id : UUID) (nick phone : GoString)
  | GetByID (id : UUID)
  | UpdateNick (id : UUID) (nick : GoString)
  | Delete (id : UUID)
  deriving DecidableEq, Repr

/-- The world after the call `op` on the adapter over `st` (the result is dropped). -/
def RepoOp.run {σ : Type} (st : Store σ) : RepoOp → σ → σ
  | .Create id nick phone, w => (repository.Create st id nick phone w).2
  | .GetByID id, w => (repository.GetByID st id w).2
  | .UpdateNick id nick, w => (repository.UpdateNick st id nick w).2
  | .Delete id, w => (repository.Delete st id w).2

/-- The world after a sequence of calls on the adapter, in order. -/
def runOps {σ : Type} (st : Store σ) (ops : List RepoOp) (w : σ) : σ :=
  ops.foldl (fun w op => op.run st w) w

/-- The id `id` is spent in the table `t`: some row carries it, and every row that
carries it is deleted. -/
def Table.spent (id : UUID) (t : Table) : Prop :=
  (∃ r ∈ t.rows, r.ID = id) ∧ ∀ r ∈ t.rows, r.ID = id → r.DeletedAt ≠ none

/-! ### Telemetry (`internal/telemetry/metrics.go`, `internal/adapters/grpcapi/interceptors.go`) -/

/-- Number of byte values `0..255` that `generateNick` maps to the symbol `c`. -/
def symbolWeight (c : Nat) : Nat :=
  ((List.range 256).filter (fun b => decide (alphabet.getD (b % alphabet.length) 0 = c))).length

/-- The struct `telemetry.Metrics`, as the state of its collectors.  A counter vector
or histogram vector is the list of the label pairs it was bumped with, one entry per
`Inc` or `Observe`, in order (the observed durations are real time and not kept); the
gauge is its value. -/
structure Metrics where
  grpcRequestsTotal : List (GoString × GoString)
  grpcRequestDuration : List (GoString × GoString)
  grpcRequestsInFlight : Int
  dbQueriesTotal : List (GoString × GoString)
  dbQueryDuration : List (GoString × GoString)
  deriving DecidableEq, Repr

namespace Metrics

/-- The method `(*Metrics).ObserveRPC`; `none` is the nil receiver. -/
def ObserveRPC (m : Option Metrics) (method code : GoString) : Option Metrics :=
  match m with
  | none => none
  | some m =>
    some { m with grpcRequestsTotal := m.grpcRequestsTotal ++ [(method, code)]
                  grpcRequestDuration := m.grpcRequestDuration ++ [(method, code)] }

/-- The method `(*Metrics).IncRPCInFlight`. -/
def IncRPCInFlight (m : Option Metrics) : Option Metrics :=
  match m with
  | none => none
  | some m => some { m with grpcRequestsInFlight := m.grpcRequestsInFlight + 1 }

/-- The method `(*Metrics).DecRPCInFlight`. -/
def DecRPCInFlight (m : Option Metrics) : Option Metrics :=
  match m with
  | none => none
  | some m => some { m with grpcRequestsInFlight := m.grpcRequestsInFlight - 1 }

/-- The method `(*Metrics).ObserveDB`. -/
def ObserveDB (m : Option Metrics) (method status : GoString) : Option Metrics :=
  match m with
  | none => none
  | some m =>
    some { m with dbQueriesTotal := m.dbQueriesTotal ++ [(method, status)]
                  dbQueryDuration := m.dbQueryDuration ++ [(method, status)] }

end Metrics

/-- The store `st` with the metrics of the adapter beside it
(`repository.NewWithMetrics(db, metrics)`): the statements act on the database and
leave the metrics alone, and `ObserveDB` is the method of the metrics. -/
def Store.withMetrics {σ : Type} (st : Store σ) : Store (σ × Option Metrics) where
  insertAccount id nick phone w :=
    ((st.insertAccount id nick phone w.1).1, ((st.insertAccount id nick phone w.1).2, w.2))
  selectActive id w := ((st.selectActive id w.1).1, ((st.selectActive id w.1).2, w.2))
  updateNick id nick w := ((st.updateNick id nick w.1).1, ((st.updateNick id nick w.1).2, w.2))
  softDelete id w := ((st.softDelete id w.1).1, ((st.softDelete id w.1).2, w.2))
  ObserveDB method status w := (w.1, Metrics.ObserveDB w.2 method status)

/-- The outcome label that the specification (section 4.1) attaches to the error an
operation of the adapter returns: `ok` for nil, `conflict` for a handle or phone
conflict, `not_found` for `ErrAccountNotFound`, `error` otherwise. -/
def outcomeLabel : Option GoError → GoString
  | none => go "ok"
  | some e =>
    if e = domain.ErrNickAlreadyExists ∨ e = domain.ErrPhoneAlreadyExists then go "conflict"
    else if e = domain.ErrAccountNotFound then go "not_found"
    else go "error"

/-- The function `path.Base`. -/
def pathBase (path : GoString) : GoString :=
  if path = [] then go "."
  else
    let stripped := (path.reverse.dropWhile (fun b => decide (b = 47))).reverse
    let last := (stripped.reverse.takeWhile (fun b => decide (b ≠ 47))).reverse
    if last = [] then go "/" else last

/-- The method `codes.Code.String`. -/
def Code.String : Code → GoString
  | .OK => go "OK"
  | .Canceled => go "Canceled"
  | .Unknown => go "Unknown"
  | .InvalidArgument => go "InvalidArgument"
  | .DeadlineExceeded => go "DeadlineExceeded"
  | .NotFound => go "NotFound"
  | .AlreadyExists => go "AlreadyExists"
  | .PermissionDenied => go "PermissionDenied"
  | .ResourceExhausted => go "ResourceExhausted"
  | .FailedPrecondition => go "FailedPrecondition"
  | .Aborted => go "Aborted"
  | .OutOfRange => go "OutOfRange"
  | .Unimplemented => go "Unimplemented"
  | .Internal => go "Internal"
  | .Unavailable => go "Unavailable"
  | .DataLoss => go "DataLoss"
  | .Unauthenticated => go "Unauthenticated"

/-- An error returned by a unary handler: a status error, or any other error. -/
inductive RpcError
  | status (s : Status)
  | plain (e : GoError)
  deriving DecidableEq, Repr

/-- The function `status.Code(err)`: `OK` for nil, the code of a status error, and
`Unknown` for any other error. -/
def statusCode : Option RpcError → Code
  | none => .OK
  | some (.status s) => s.code
  | some (.plain _) => .Unknown

/-- How a call of a unary handler ends: it returns a response and an error, or it
panics with a value. -/
inductive HandlerOutcome (ρ : Type)
  | returned (resp : Option ρ) (err : Option RpcError)
  | panicked (value : GoString)

/-- The interceptor returned by `UnaryMetricsInterceptor(metrics, logger)`, called
with `info.FullMethod` and the handler.  The world holds the metrics the interceptor
was built with (`none` for nil); `logInfo method code` is the line written by
`logger.Info("grpc request", ...)`.  When the handler panics, the statements after the
handler call are skipped and only the deferred `DecRPCInFlight` runs before the panic
goes on. -/
def UnaryMetricsInterceptor {σ ρ : Type} (logInfo : GoString → GoString → σ → σ)
    (fullMethod : GoString)
    (handler : σ × Option Metrics → HandlerOutcome ρ × (σ × Option Metrics))
    (w : σ × Option Metrics) : HandlerOutcome ρ × (σ × Option Metrics) :=
  let method := pathBase fullMethod
  let h := handler (w.1, Metrics.IncRPCInFlight w.2)
  match h.1 with
  | .panicked value => (.panicked value, (h.2.1, Metrics.DecRPCInFlight h.2.2))
  | .returned resp err =>
    let code := (statusCode err).String
    let observed := Metrics.ObserveRPC h.2.2 method code
    (.returned resp err, (logInfo method code h.2.1, Metrics.DecRPCInFlight observed))

/-! ## Theorems -/

/-! ### Helper lemmas: the creation loop -/

theorem generateNick_logged {σ : Type} (src : Sources σ) (w : σ) (log : Log) :
    generateNick src.logged (w, log)
      = ((generateNick src w).1, ((generateNick src w).2, log)) := by
  unfold generateNick
  simp only [Sources.logged]
  cases h : (src.randRead w).1.2 <;> simp

theorem logged_Create {σ : Type} (repo : Repository σ) (id : UUID) (nick phone : GoString)
    (w : σ) (log : Log) :
    repo.logged.Create id nick phone (w, log)
      = ((repo.Create id nick phone w).1, ((repo.Create id nick phone w).2,
          log ++ [(Call.Create id nick phone, (repo.Create id nick phone w).1.2)])) := rfl

theorem createLoop_logged_append {σ : Type} (repo : Repository σ) (src : Sources σ) (id : UUID)
    (phone : GoString) (n : Nat) : ∀ (w : σ) (log : Log),
    createLoop repo.logged src.logged id phone n (w, log)
      = ((createLoop repo.logged src.logged id phone n (w, [])).1,
          ((createLoop repo.logged src.logged id phone n (w, [])).2.1,
            log ++ (createLoop repo.logged src.logged id phone n (w, [])).2.2)) := by
  induction n with
  | zero => intro w log; simp [createLoop]
  | succ n ih =>
    intro w log
    simp only [createLoop, generateNick_logged, logged_Create]
    cases hg : (generateNick src w).1.2 with
    | some err => simp
    | none =>
      cases hr : (repo.Create id (generateNick src w).1.1 phone (generateNick src w).2).1.2 with
      | none => simp
      | some err =>
        simp only []
        by_cases he : err = domain.ErrNickAlreadyExists
        · simp only [he, if_true]
          rw [ih _ (log ++ _), ih _ ([] ++ _)]
          simp
        · simp [he]

/-- One iteration of the loop over an instrumented repository, started on an empty log. -/
theorem createLoop_logged_succ {σ : Type} (repo : Repository σ) (src : Sources σ) (id : UUID)
    (phone : GoString) (n : Nat) (w : σ) :
    createLoop repo.logged src.logged id phone (n + 1) (w, [])
      = match (generateNick src w).1.2 with
        | some err => ((Account.zero, some err), ((generateNick src w).2, []))
        | none =>
          let r := repo.Create id (generateNick src w).1.1 phone (generateNick src w).2
          let entry : Call × Option GoError := (Call.Create id (generateNick src w).1.1 phone, r.1.2)
          match r.1.2 with
          | none => ((r.1.1, none), (r.2, [entry]))
          | some err =>
            if err = domain.ErrNickAlreadyExists then
              ((createLoop repo.logged src.logged id phone n (r.2, [])).1,
                ((createLoop repo.logged src.logged id phone n (r.2, [])).2.1,
                  entry :: (createLoop repo.logged src.logged id phone n (r.2, [])).2.2))
            else ((Account.zero, some err), (r.2, [entry])) := by
  simp only [createLoop, generateNick_logged, logged_Create]
  cases hg : (generateNick src w).1.2 with
  | some err => simp
  | none =>
    cases hr : (repo.Create id (generateNick src w).1.1 phone (generateNick src w).2).1.2 with
    | none => simp
    | some err =>
      simp only []
      by_cases he : err = domain.ErrNickAlreadyExists
      · simp only [he, if_true]
        rw [createLoop_logged_append]
        simp
      · simp [he]


theorem alphabet_inClass : ∀ c ∈ alphabet,
    inClass [(97, 122), (65, 90), (48, 57), (95, 95)] c = true := by
  decide

theorem alphabet_getD_mem (b : Nat) : alphabet.getD (b % alphabet.length) 0 ∈ alphabet := by
  have hlt : b % alphabet.length < alphabet.length := Nat.mod_lt _ (by decide)
  rw [List.getD_eq_getElem _ _ hlt]
  exact List.getElem_mem _

theorem isValidNick_of_alphabet (body : GoString) (hlen : body.length = 10)
    (hmem : ∀ c ∈ body, c ∈ alphabet) : isValidNick (64 :: body) = true := by
  have hall : body.all (inClass [(97, 122), (65, 90), (48, 57), (95, 95)]) = true := by
    rw [List.all_eq_true]
    intro c hc
    exact alphabet_inClass c (hmem c hc)
  simp only [isValidNick, nickPattern, matchItems, List.any_eq_true, List.mem_range]
  refine ⟨1, by omega, ?_⟩
  simp only [Bool.and_eq_true, decide_eq_true_eq, List.any_eq_true, List.mem_range]
  refine ⟨⟨⟨le_refl _, by simp⟩, by simp [inClass]⟩, 10, by omega, ?_⟩
  simp [hlen, hall, List.take_of_length_le, List.drop_of_length_le]

theorem generateNick_ok {σ : Type} (src : Sources σ) (w : σ)
    (h : (src.randRead w).1.2 = none) :
    (generateNick src w).1.2 = none ∧ (generateNick src w).2 = (src.randRead w).2 ∧
    ∃ body : GoString, (generateNick src w).1.1 = 64 :: body ∧ body.length = 10 ∧
      ∀ c ∈ body, c ∈ alphabet := by
  unfold generateNick
  simp only [h]
  refine ⟨trivial, trivial,
    ((List.range 10).map (fun i => (src.randRead w).1.1 i % 256)).map
      (fun b => alphabet.getD (b % alphabet.length) 0), rfl, by simp, ?_⟩
  intro c hc
  rw [List.mem_map] at hc
  obtain ⟨b, _, rfl⟩ := hc
  exact alphabet_getD_mem b

theorem generateNick_fail {σ : Type} (src : Sources σ) (w : σ) (err : GoError)
    (h : (src.randRead w).1.2 = some err) :
    generateNick src w = (([], some err), (src.randRead w).2) := by
  unfold generateNick
  simp only [h]


theorem createLoop_log_shape {σ : Type} (repo : Repository σ) (src : Sources σ) (id : UUID)
    (phone : GoString) (n : Nat) : ∀ w : σ,
    (createLoop repo.logged src.logged id phone n (w, [])).2.2.length ≤ n ∧
    ∀ c ∈ (createLoop repo.logged src.logged id phone n (w, [])).2.2,
      ∃ nick, c.1 = Call.Create id nick phone := by
  induction n with
  | zero => intro w; simp [createLoop]
  | succ n ih =>
    intro w
    rw [createLoop_logged_succ]
    cases hg : (generateNick src w).1.2 with
    | some err => simp
    | none =>
      cases hr : (repo.Create id (generateNick src w).1.1 phone (generateNick src w).2).1.2 with
      | none => simp [hr]
      | some err =>
        by_cases he : err = domain.ErrNickAlreadyExists
        · have h := ih (repo.Create id (generateNick src w).1.1 phone (generateNick src w).2).2
          simp only [hr, he, if_true, List.length_cons, List.mem_cons]
          refine ⟨by omega, ?_⟩
          rintro c (rfl | hc)
          · exact ⟨_, rfl⟩
          · exact h.2 c hc
        · simp [hr, he]

theorem createLoop_exhaust {σ : Type} (repo : Repository σ) (src : Sources σ) (id : UUID)
    (phone : GoString)
    (hrepo : ∀ nick s, (repo.Create id nick phone s).1.2 = some domain.ErrNickAlreadyExists)
    (hrand : ∀ s, (src.randRead s).1.2 = none) (n : Nat) : ∀ w : σ,
    (createLoop repo.logged src.logged id phone n (w, [])).1
      = (Account.zero, some domain.ErrNickAlreadyExists) ∧
    (createLoop repo.logged src.logged id phone n (w, [])).2.2.length = n ∧
    ∀ c ∈ (createLoop repo.logged src.logged id phone n (w, [])).2.2,
      c.2 = some domain.ErrNickAlreadyExists := by
  induction n with
  | zero => intro w; simp [createLoop]
  | succ n ih =>
    intro w
    rw [createLoop_logged_succ]
    have hg := (generateNick_ok src w (hrand w)).1
    have hr := hrepo (generateNick src w).1.1 (generateNick src w).2
    have h := ih (repo.Create id (generateNick src w).1.1 phone (generateNick src w).2).2
    simp only [hg, hr, if_true, List.length_cons, List.mem_cons]
    refine ⟨h.1, by omega, ?_⟩
    rintro c (rfl | hc)
    · rfl
    · exact h.2.2 c hc

theorem createLoop_stops {σ : Type} (repo : Repository σ) (src : Sources σ) (id : UUID)
    (phone : GoString) (n : Nat) : ∀ (k : Nat) (w : σ) (e : GoError), 1 ≤ k →
    (∀ i, i + 1 < k →
      ((createLoop repo.logged src.logged id phone n (w, [])).2.2[i]?).map Prod.snd
        = some (some domain.ErrNickAlreadyExists)) →
    ((createLoop repo.logged src.logged id phone n (w, [])).2.2[k - 1]?).map Prod.snd
        = some (some e) →
    e ≠ domain.ErrNickAlreadyExists →
    (createLoop repo.logged src.logged id phone n (w, [])).1 = (Account.zero, some e) ∧
    (createLoop repo.logged src.logged id phone n (w, [])).2.2.length = k := by
  induction n with
  | zero => intro k w e _ _ hk _; simp [createLoop] at hk
  | succ n ih =>
    intro k w e hk1 hpre hk hne
    rw [createLoop_logged_succ] at hpre hk ⊢
    cases hg : (generateNick src w).1.2 with
    | some err => simp [hg] at hk
    | none =>
      simp only [hg] at hpre hk ⊢
      cases hr : (repo.Create id (generateNick src w).1.1 phone (generateNick src w).2).1.2 with
      | none =>
        simp only [hr] at hpre hk ⊢
        rcases Nat.lt_or_ge 1 k with h1 | h1
        · have := hpre 0 (by omega)
          simp at this
        · have hk' : k - 1 = 0 := by omega
          rw [hk'] at hk
          simp at hk
      | some err =>
        simp only [hr] at hpre hk ⊢
        by_cases he : err = domain.ErrNickAlreadyExists
        · simp only [he, if_true] at hpre hk ⊢
          rcases Nat.lt_or_ge 1 k with h1 | h1
          · obtain ⟨k', rfl⟩ : ∃ k', k = k' + 1 := ⟨k - 1, by omega⟩
            have hk2 : k' + 1 - 1 = (k' - 1) + 1 := by omega
            rw [hk2, List.getElem?_cons_succ] at hk
            have h := ih k' _ e (by omega)
              (fun i hi => by
                have := hpre (i + 1) (by omega)
                rwa [List.getElem?_cons_succ] at this)
              hk hne
            refine ⟨h.1, ?_⟩
            simp [h.2]
          · have hk' : k - 1 = 0 := by omega
            rw [hk'] at hk
            simp at hk
            exact absurd hk.symm hne
        · simp only [he, if_false] at hpre hk ⊢
          rcases Nat.lt_or_ge 1 k with h1 | h1
          · have := hpre 0 (by omega)
            simp at this
            exact absurd this he
          · have hk' : k - 1 = 0 := by omega
            rw [hk'] at hk
            simp at hk
            subst hk
            refine ⟨rfl, ?_⟩
            simp
            omega


theorem createLoop_result {σ : Type} (repo : Repository σ) (src : Sources σ) (id : UUID)
    (phone : GoString)
    (hrepo : ∀ nick s,
      ((repo.Create id nick phone s).1.2 = none ∧ (repo.Create id nick phone s).1.1.ID = id ∧
        (repo.Create id nick phone s).1.1.Nick = nick ∧
        (repo.Create id nick phone s).1.1.Phone = phone) ∨
      ∃ d, (repo.Create id nick phone s).1.2 = some (GoError.domain d))
    (n : Nat) : ∀ w : σ,
    ((createLoop repo src id phone n w).1.2 = none ∧
      (createLoop repo src id phone n w).1.1.ID = id ∧
      (createLoop repo src id phone n w).1.1.Phone = phone ∧
      isValidNick (createLoop repo src id phone n w).1.1.Nick = true) ∨
    (∃ d, (createLoop repo src id phone n w).1 = (Account.zero, some (GoError.domain d))) ∨
    (∃ s e, (src.randRead s).1.2 = some e ∧
      (createLoop repo src id phone n w).1 = (Account.zero, some e)) := by
  induction n with
  | zero => intro w; exact Or.inr (Or.inl ⟨_, rfl⟩)
  | succ n ih =>
    intro w
    simp only [createLoop]
    cases hrd : (src.randRead w).1.2 with
    | some err =>
      rw [generateNick_fail src w err hrd]
      exact Or.inr (Or.inr ⟨w, err, hrd, rfl⟩)
    | none =>
      obtain ⟨hg, _, body, hbody, hlen, hmem⟩ := generateNick_ok src w hrd
      simp only [hg]
      rcases hrepo (generateNick src w).1.1 (generateNick src w).2 with
        ⟨hnone, hid, hnick, hph⟩ | ⟨d, hd⟩
      · simp only [hnone]
        refine Or.inl ⟨trivial, hid, hph, ?_⟩
        rw [hnick, hbody]
        exact isValidNick_of_alphabet body hlen hmem
      · simp only [hd]
        by_cases he : GoError.domain d = domain.ErrNickAlreadyExists
        · simp only [he, if_true]
          exact ih _
        · simp only [he, if_false]
          exact Or.inr (Or.inl ⟨d, rfl⟩)

theorem Create_logged_valid {σ : Type} (repo : Repository σ) (src : Sources σ)
    (phone : GoString) (w : σ) (h : isValidPhone (TrimSpace phone) = true) :
    Service.Create repo.logged src.logged phone (w, [])
      = createLoop repo.logged src.logged (src.uuidNew w).1 (TrimSpace phone)
          maxNickGenerationAttempts ((src.uuidNew w).2, []) := by
  simp [Service.Create, h, Sources.logged]

/-! ### Creation: validation -/

/-- C1: for every phone string whose whitespace-trimmed form does not match the phone
pattern, `Service.Create` returns the zero `Account` and exactly
`domain.ErrInvalidPhone`, and the repository receives no call (the world and the call
log are left as they were), whatever the repository and the sources are. -/
theorem C1_create_rejects_invalid_phone {σ : Type} (repo : Repository σ) (src : Sources σ)
    (phone : GoString) (w : σ) (log : Log)
    (h : isValidPhone (TrimSpace phone) = false) :
    Service.Create repo.logged src.logged phone (w, log)
      = ((Account.zero, some domain.ErrInvalidPhone), (w, log)) := by
  simp [Service.Create, h]

/-- C1 at the phones `"123"`, `""` and `"+0123"`, against a repository that would
accept anything. -/
theorem C1_create_rejects_invalid_phone_witness :
    (isValidPhone (TrimSpace (go "123")) = false ∧
      isValidPhone (TrimSpace (go "")) = false ∧
      isValidPhone (TrimSpace (go "+0123")) = false) ∧
    Service.Create echoRepo.logged steadySources.logged (go "123") (0, [])
      = ((Account.zero, some domain.ErrInvalidPhone), (0, [])) :=
  ⟨by decide, C1_create_rejects_invalid_phone echoRepo steadySources (go "123") 0 []
    (by decide)⟩

/-! ### Creation: the retry loop -/

/-- C2, as stated, fails when a random read fails: against a repository whose `Create`
returns `ErrNickAlreadyExists` on every call and a random source whose read reports an
error, `Service.Create` with the valid phone `+15551234567` returns that error after
no repository call at all. -/
theorem C2_counterexample_failed_random_read :
    isValidPhone (TrimSpace (go "+15551234567")) = true ∧
    (∀ id nick ph s, ((scriptedRepo [] (Account.zero, some domain.ErrNickAlreadyExists)
        (Account.zero, none)).Create id nick ph s).1.2 = some domain.ErrNickAlreadyExists) ∧
    Service.Create
        (scriptedRepo [] (Account.zero, some domain.ErrNickAlreadyExists)
          (Account.zero, none)).logged
        (brokenSources (go "entropy unavailable")).logged (go "+15551234567") (0, [])
      = ((Account.zero, some (GoError.foreign (go "entropy unavailable"))), (0, [])) := by
  refine ⟨by decide, ?_, by decide⟩
  intro id nick ph s
  simp [scriptedRepo]

/-- C2 (amended): `Service.Create` never calls `Repository.Create` more than 10 times,
whatever the repository and the sources do; and for every valid phone, a repository
whose `Create` returns `domain.ErrNickAlreadyExists` on every call and a random source
whose reads all succeed, it calls `Repository.Create` exactly 10 times, each time with
the generated id and the trimmed phone, and then returns the zero `Account` with
`domain.ErrNickAlreadyExists`. -/
theorem C2_create_gives_up_after_ten_conflicts :
    (∀ (σ : Type) (repo : Repository σ) (src : Sources σ) (phone : GoString) (w : σ),
      (Service.Create repo.logged src.logged phone (w, [])).2.2.length ≤ 10) ∧
    (∀ (σ : Type) (repo : Repository σ) (src : Sources σ) (phone : GoString) (w : σ),
      isValidPhone (TrimSpace phone) = true →
      (∀ id nick ph s, (repo.Create id nick ph s).1.2 = some domain.ErrNickAlreadyExists) →
      (∀ s, (src.randRead s).1.2 = none) →
      (Service.Create repo.logged src.logged phone (w, [])).1
        = (Account.zero, some domain.ErrNickAlreadyExists) ∧
      (Service.Create repo.logged src.logged phone (w, [])).2.2.length = 10 ∧
      ∀ c ∈ (Service.Create repo.logged src.logged phone (w, [])).2.2,
        c.2 = some domain.ErrNickAlreadyExists ∧
        ∃ nick, c.1 = Call.Create (src.uuidNew w).1 nick (TrimSpace phone)) := by
  constructor
  · intro σ repo src phone w
    cases h : isValidPhone (TrimSpace phone) with
    | false => simp [Service.Create, h]
    | true =>
      rw [Create_logged_valid repo src phone w h]
      exact (createLoop_log_shape repo src _ _ maxNickGenerationAttempts _).1
  · intro σ repo src phone w hphone hrepo hrand
    rw [Create_logged_valid repo src phone w hphone]
    have h := createLoop_exhaust repo src (src.uuidNew w).1 (TrimSpace phone)
      (fun nick s => hrepo _ nick _ s) hrand maxNickGenerationAttempts (src.uuidNew w).2
    have hs := createLoop_log_shape repo src (src.uuidNew w).1 (TrimSpace phone)
      maxNickGenerationAttempts (src.uuidNew w).2
    exact ⟨h.1, h.2.1, fun c hc => ⟨h.2.2 c hc, hs.2 c hc⟩⟩

/-- C2 (amended) at the phone `+15551234567`, a repository that always reports a nick
conflict and sources that never fail. -/
theorem C2_create_gives_up_after_ten_conflicts_witness :
    isValidPhone (TrimSpace (go "+15551234567")) = true ∧
    (Service.Create
        (scriptedRepo [] (Account.zero, some domain.ErrNickAlreadyExists)
          (Account.zero, none)).logged
        steadySources.logged (go "+15551234567") (0, [])).1
      = (Account.zero, some domain.ErrNickAlreadyExists) ∧
    (Service.Create
        (scriptedRepo [] (Account.zero, some domain.ErrNickAlreadyExists)
          (Account.zero, none)).logged
        steadySources.logged (go "+15551234567") (0, [])).2.2.length = 10 :=
  have h := C2_create_gives_up_after_ten_conflicts.2 Nat
    (scriptedRepo [] (Account.zero, some domain.ErrNickAlreadyExists) (Account.zero, none))
    steadySources (go "+15551234567") 0 (by decide)
    (by intro id nick ph s; simp [scriptedRepo]) (by intro s; rfl)
  ⟨by decide, h.1, h.2.1⟩

/-- C3: for every valid phone and every `k ≥ 1`, if within one `Service.Create` the
repository's `Create` returns `domain.ErrNickAlreadyExists` on attempts `1..k-1` and an
error `e` other than `domain.ErrNickAlreadyExists` on attempt `k`, then
`Service.Create` returns exactly `e` with the zero `Account`, after exactly `k`
repository calls (so `k ≤ 10` and no further attempt is made). -/
theorem C3_create_surfaces_other_error {σ : Type} (repo : Repository σ) (src : Sources σ)
    (phone : GoString) (w : σ) (k : Nat) (e : GoError)
    (hphone : isValidPhone (TrimSpace phone) = true) (hk : 1 ≤ k)
    (hretry : ∀ i, i + 1 < k →
      ((Service.Create repo.logged src.logged phone (w, [])).2.2[i]?).map Prod.snd
        = some (some domain.ErrNickAlreadyExists))
    (hlast : ((Service.Create repo.logged src.logged phone (w, [])).2.2[k - 1]?).map Prod.snd
        = some (some e))
    (hne : e ≠ domain.ErrNickAlreadyExists) :
    (Service.Create repo.logged src.logged phone (w, [])).1 = (Account.zero, some e) ∧
    (Service.Create repo.logged src.logged phone (w, [])).2.2.length = k ∧ k ≤ 10 := by
  rw [Create_logged_valid repo src phone w hphone] at hretry hlast ⊢
  have h := createLoop_stops repo src (src.uuidNew w).1 (TrimSpace phone)
    maxNickGenerationAttempts k (src.uuidNew w).2 e hk hretry hlast hne
  have hs := createLoop_log_shape repo src (src.uuidNew w).1 (TrimSpace phone)
    maxNickGenerationAttempts (src.uuidNew w).2
  refine ⟨h.1, h.2, ?_⟩
  have := hs.1
  rw [h.2] at this
  exact this

/-- C3 with `k = 3` and `e = domain.ErrPhoneAlreadyExists`: two nick conflicts, then a
phone conflict returned next to a non-zero account; and with `k = 1`: a phone conflict
on the first attempt. -/
theorem C3_create_surfaces_other_error_witness :
    ((Service.Create conflictThenPhoneRepo.logged steadySources.logged (go "+15551234567")
        (0, [])).1 = (Account.zero, some domain.ErrPhoneAlreadyExists) ∧
      (Service.Create conflictThenPhoneRepo.logged steadySources.logged (go "+15551234567")
        (0, [])).2.2.length = 3 ∧ 3 ≤ 10) ∧
    ((Service.Create
        (scriptedRepo [] (strayAccount, some domain.ErrPhoneAlreadyExists)
          (Account.zero, none)).logged
        steadySources.logged (go "+15551234567") (0, [])).1
        = (Account.zero, some domain.ErrPhoneAlreadyExists) ∧
      (Service.Create
        (scriptedRepo [] (strayAccount, some domain.ErrPhoneAlreadyExists)
          (Account.zero, none)).logged
        steadySources.logged (go "+15551234567") (0, [])).2.2.length = 1 ∧ 1 ≤ 10) :=
  ⟨C3_create_surfaces_other_error conflictThenPhoneRepo steadySources (go "+15551234567") 0 3
      domain.ErrPhoneAlreadyExists (by decide) (by decide)
      (by
        intro i hi
        have hcases : i = 0 ∨ i = 1 := by omega
        rcases hcases with rfl | rfl <;> decide)
      (by decide) (by decide),
    C3_create_surfaces_other_error
      (scriptedRepo [] (strayAccount, some domain.ErrPhoneAlreadyExists) (Account.zero, none))
      steadySources (go "+15551234567") 0 1 domain.ErrPhoneAlreadyExists (by decide)
      (by decide) (by intro i hi; omega) (by decide) (by decide)⟩

/-- C4, as stated, fails when a random read fails: against a repository that returns
an account carrying what it was given, `Service.Create` with the valid phone
`+15551234567` returns neither an account nor a domain error but the error of the
random source. -/
theorem C4_counterexample_failed_random_read :
    isValidPhone (TrimSpace (go "+15551234567")) = true ∧
    (∀ id nick ph s, (echoRepo.Create id nick ph s).1.2 = none ∧
      (echoRepo.Create id nick ph s).1.1.ID = id ∧
      (echoRepo.Create id nick ph s).1.1.Nick = nick ∧
      (echoRepo.Create id nick ph s).1.1.Phone = ph) ∧
    (Service.Create echoRepo.logged (brokenSources (go "entropy unavailable")).logged
        (go "+15551234567") (0, [])).1
      = (Account.zero, some (GoError.foreign (go "entropy unavailable"))) ∧
    ∀ d, GoError.foreign (go "entropy unavailable") ≠ GoError.domain d := by
  refine ⟨by decide, ?_, by decide, ?_⟩
  · intro id nick ph s
    exact ⟨rfl, rfl, rfl, rfl⟩
  · intro d h
    cases h

/-- C4 (amended): for every phone input whose trimmed form matches the phone pattern,
and a repository whose `Create` either returns an account carrying the id, nick and
phone it was given or returns a domain error, `Service.Create` either returns an
account whose phone equals the trimmed input, whose id is the generated one and whose
nick matches `^@[a-zA-Z0-9_]{2,30}$`, or fails, with the zero `Account`, with a domain
error or with the error of a failed random read; every `Repository.Create` call made
within that one `Service.Create` call receives the same id and the trimmed phone. -/
theorem C4_create_account_or_documented_error {σ : Type} (repo : Repository σ)
    (src : Sources σ) (phone : GoString) (w : σ)
    (hphone : isValidPhone (TrimSpace phone) = true)
    (hrepo : ∀ id nick ph s,
      ((repo.Create id nick ph s).1.2 = none ∧ (repo.Create id nick ph s).1.1.ID = id ∧
        (repo.Create id nick ph s).1.1.Nick = nick ∧
        (repo.Create id nick ph s).1.1.Phone = ph) ∨
      ∃ d, (repo.Create id nick ph s).1.2 = some (GoError.domain d)) :
    (((Service.Create repo.logged src.logged phone (w, [])).1.2 = none ∧
        (Service.Create repo.logged src.logged phone (w, [])).1.1.ID = (src.uuidNew w).1 ∧
        (Service.Create repo.logged src.logged phone (w, [])).1.1.Phone = TrimSpace phone ∧
        isValidNick (Service.Create repo.logged src.logged phone (w, [])).1.1.Nick = true) ∨
      (∃ d, (Service.Create repo.logged src.logged phone (w, [])).1
        = (Account.zero, some (GoError.domain d))) ∨
      (∃ s e, (src.randRead s).1.2 = some e ∧
        (Service.Create repo.logged src.logged phone (w, [])).1 = (Account.zero, some e))) ∧
    ∀ c ∈ (Service.Create repo.logged src.logged phone (w, [])).2.2,
      ∃ nick, c.1 = Call.Create (src.uuidNew w).1 nick (TrimSpace phone) := by
  rw [Create_logged_valid repo src phone w hphone]
  refine ⟨?_, (createLoop_log_shape repo src _ _ maxNickGenerationAttempts _).2⟩
  have h := createLoop_result repo.logged src.logged (src.uuidNew w).1 (TrimSpace phone)
    (fun nick s => hrepo (src.uuidNew w).1 nick (TrimSpace phone) s.1)
    maxNickGenerationAttempts ((src.uuidNew w).2, [])
  rcases h with h | h | ⟨s, e, hs, he⟩
  · exact Or.inl h
  · exact Or.inr (Or.inl h)
  · exact Or.inr (Or.inr ⟨s.1, e, hs, he⟩)

/-- C4 (amended) at the phone `" +15551234567 "` (with surrounding blanks), the echoing
repository and sources that never fail: the account comes back with the trimmed
phone and a well-formed nick. -/
theorem C4_create_account_or_documented_error_witness :
    isValidPhone (TrimSpace (go " +15551234567 ")) = true ∧
    (Service.Create echoRepo.logged steadySources.logged (go " +15551234567 ") (0, [])).1.2
      = none ∧
    (Service.Create echoRepo.logged steadySources.logged (go " +15551234567 ")
      (0, [])).1.1.Phone = go "+15551234567" ∧
    isValidNick (Service.Create echoRepo.logged steadySources.logged (go " +15551234567 ")
      (0, [])).1.1.Nick = true ∧
    ∀ c ∈ (Service.Create echoRepo.logged steadySources.logged (go " +15551234567 ")
        (0, [])).2.2,
      ∃ nick, c.1 = Call.Create (steadySources.uuidNew 0).1 nick
        (TrimSpace (go " +15551234567 ")) :=
  have h := C4_create_account_or_documented_error echoRepo steadySources
    (go " +15551234567 ") 0 (by decide)
    (fun _ _ _ _ => Or.inl ⟨rfl, rfl, rfl, rfl⟩)
  ⟨by decide, by decide, by decide, by decide, h.2⟩

/-! ### Handle generation -/

/-- C5: whenever the read of the 10 random bytes succeeds, `generateNick` returns no
error and a string of length 11 made of `@` followed by 10 characters each drawn from
`abcdefghijklmnopqrstuvwxyz0123456789`, character `i` being `alphabet[b_i % 36]` for
the byte `b_i` read; that string is accepted by `isValidNick`. -/
theorem C5_generateNick_wellformed {σ : Type} (src : Sources σ) (w : σ)
    (h : (src.randRead w).1.2 = none) :
    (generateNick src w).1.2 = none ∧
    (generateNick src w).1.1.length = 11 ∧
    (∃ body : GoString, (generateNick src w).1.1 = go "@" ++ body ∧ body.length = 10 ∧
      (∀ c ∈ body, c ∈ go "abcdefghijklmnopqrstuvwxyz0123456789") ∧
      ∀ i, i < 10 →
        body[i]? = (go "abcdefghijklmnopqrstuvwxyz0123456789")[(src.randRead w).1.1 i % 256 % 36]?) ∧
    isValidNick (generateNick src w).1.1 = true := by
  obtain ⟨hg, _, body, hbody, hlen, hmem⟩ := generateNick_ok src w h
  refine ⟨hg, by rw [hbody]; simp [hlen], ⟨body, hbody, hlen, hmem, ?_⟩, ?_⟩
  · intro i hi
    have hb : (generateNick src w).1.1
        = go "@" ++ ((List.range 10).map (fun i => (src.randRead w).1.1 i % 256)).map
            (fun b => alphabet.getD (b % alphabet.length) 0) := by
      unfold generateNick
      simp only [h]
    have hbody2 : body = ((List.range 10).map (fun i => (src.randRead w).1.1 i % 256)).map
            (fun b => alphabet.getD (b % alphabet.length) 0) := by
      have := hbody.symm.trans hb
      exact List.tail_eq_of_cons_eq this
    rw [hbody2]
    have key : ∀ x : Nat, some (alphabet.getD (x % alphabet.length) 0) = alphabet[x % 36]? := by
      intro x
      have h36 : alphabet.length = 36 := by decide
      have hlt : x % 36 < alphabet.length := by rw [h36]; exact Nat.mod_lt _ (by decide)
      rw [h36, List.getD_eq_getElem _ _ hlt, List.getElem?_eq_getElem hlt]
    simp only [List.map_map, List.getElem?_map, List.getElem?_range hi, Option.map_some',
      Function.comp]
    exact key _
  · rw [hbody]
    exact isValidNick_of_alphabet body hlen hmem

/-- C5 at a concrete successful read. -/
theorem C5_generateNick_wellformed_witness :
    (steadySources.randRead 5).1.2 = none ∧
    (generateNick steadySources 5).1.1 = go "@fghijklijk" ∧
    isValidNick (generateNick steadySources 5).1.1 = true :=
  ⟨rfl, by decide, (C5_generateNick_wellformed steadySources 5 rfl).2.2.2⟩

/-! ### Handle update: validation -/

/-- The last item of a pattern matches exactly the texts of an allowed length whose
characters all lie in the class. -/
theorem matchItems_last (it : Item) (s : GoString) :
    matchItems [it] s = true ↔
      it.min ≤ s.length ∧ s.length ≤ it.max ∧ ∀ c ∈ s, inClass it.ranges c = true := by
  simp only [matchItems, List.any_eq_true, List.mem_range, Bool.and_eq_true,
    decide_eq_true_eq, List.all_eq_true, List.isEmpty_iff]
  constructor
  · rintro ⟨k, hk, ⟨⟨hmin, hlen⟩, hall⟩, hdrop⟩
    have hk' : s.length ≤ k := by
      have := congrArg List.length hdrop
      simp at this
      omega
    have hkeq : k = s.length := by omega
    subst hkeq
    refine ⟨hmin, by omega, ?_⟩
    intro c hc
    exact hall c (by simpa using hc)
  · rintro ⟨hmin, hmax, hall⟩
    refine ⟨s.length, by omega, ⟨⟨hmin, le_refl _⟩, ?_⟩, by simp⟩
    intro c hc
    exact hall c (by simpa using hc)

/-- An item `[class]{1,1}` consumes exactly one character of the class. -/
theorem matchItems_single (ranges : List (Nat × Nat)) (rest : List Item) (s : GoString) :
    matchItems (⟨ranges, 1, 1⟩ :: rest) s = true ↔
      ∃ c t, s = c :: t ∧ inClass ranges c = true ∧ matchItems rest t = true := by
  simp only [matchItems, List.any_eq_true, List.mem_range, Bool.and_eq_true,
    decide_eq_true_eq, List.all_eq_true]
  constructor
  · rintro ⟨k, hk, ⟨⟨hmin, hlen⟩, hall⟩, hrest⟩
    have hk1 : k = 1 := by omega
    subst hk1
    cases s with
    | nil => simp at hlen
    | cons c t =>
      refine ⟨c, t, rfl, hall c (by simp), ?_⟩
      simpa using hrest
  · rintro ⟨c, t, rfl, hc, hrest⟩
    refine ⟨1, by omega, ⟨⟨le_refl _, by simp⟩, ?_⟩, by simpa using hrest⟩
    intro x hx
    simp at hx
    subst hx
    exact hc

theorem isValidNick_iff (s : GoString) :
    isValidNick s = true ↔
      ∃ body, s = 64 :: body ∧ 2 ≤ body.length ∧ body.length ≤ 30 ∧
        ∀ c ∈ body, inClass [(97, 122), (65, 90), (48, 57), (95, 95)] c = true := by
  unfold isValidNick nickPattern
  rw [matchItems_single]
  constructor
  · rintro ⟨c, t, rfl, hc, hrest⟩
    rw [matchItems_last] at hrest
    have hc64 : c = 64 := by
      simp [inClass] at hc
      omega
    subst hc64
    exact ⟨t, rfl, hrest.1, hrest.2.1, hrest.2.2⟩
  · rintro ⟨body, rfl, h2, h30, hall⟩
    refine ⟨64, body, rfl, by simp [inClass], ?_⟩
    rw [matchItems_last]
    exact ⟨h2, h30, hall⟩

/-- C6: for every nick string whose whitespace-trimmed form does not match
`^@[a-zA-Z0-9_]{2,30}$`, `Service.UpdateNick` returns the zero `Account` and exactly
`domain.ErrInvalidNick`, and the repository receives no call (the world and the call
log are left as they were), whatever the repository is. -/
theorem C6_updateNick_rejects_invalid_nick {σ : Type} (repo : Repository σ) (id : UUID)
    (nick : GoString) (w : σ) (log : Log)
    (h : isValidNick (TrimSpace nick) = false) :
    Service.UpdateNick repo.logged id nick (w, log)
      = ((Account.zero, some domain.ErrInvalidNick), (w, log)) := by
  simp [Service.UpdateNick, h]

/-- C6 at the nick `"@"`, against a repository that would accept anything. -/
theorem C6_updateNick_rejects_invalid_nick_witness :
    isValidNick (TrimSpace (go "@")) = false ∧
    Service.UpdateNick echoRepo.logged (List.replicate 16 7) (go "@") (0, [])
      = ((Account.zero, some domain.ErrInvalidNick), (0, [])) :=
  ⟨by decide, C6_updateNick_rejects_invalid_nick echoRepo (List.replicate 16 7) (go "@") 0 []
    (by decide)⟩

/-- C7, as stated, fails: the string `" @abc"`, as supplied by the caller, does not
match the handle pattern (it starts with a blank), yet `Service.UpdateNick` trims it
and calls `Repository.UpdateNick` once, with `"@abc"`, returning the repository's
account and a nil error. -/
theorem C7_counterexample_padded_handle :
    isValidNick (go " @abc") = false ∧
    Service.UpdateNick echoRepo.logged (List.replicate 16 7) (go " @abc") (0, [])
      = (({ ID := List.replicate 16 7, Nick := go "@abc", Phone := go "+15551234567",
            CreatedAt := 1, UpdatedAt := 2, DeletedAt := none }, none),
          (1, [(Call.UpdateNick (List.replicate 16 7) (go "@abc"), none)])) := by
  decide

/-- C7 (amended): `Service.UpdateNick` fails with `domain.ErrInvalidNick` without
calling `Repository.UpdateNick` exactly when the whitespace-trimmed input fails the
handle pattern `^@[A-Za-z0-9_]{2,30}$`, that is when the trimmed input does not start
with `@`, is shorter than 3 or longer than 31 bytes, or has after its first byte a
byte outside `[A-Za-z0-9_]` (white space inside the handle, for one).  So `"@"`,
`"@a"`, `@` followed by 31 letters and `"@a b"` are rejected, while `@` followed by
30 letters is accepted. -/
theorem C7_updateNick_rejects_iff_trimmed_invalid {σ : Type} (repo : Repository σ)
    (id : UUID) (nick : GoString) (w : σ) :
    (Service.UpdateNick repo.logged id nick (w, [])
        = ((Account.zero, some domain.ErrInvalidNick), (w, []))
      ↔ isValidNick (TrimSpace nick) = false) ∧
    (isValidNick (TrimSpace nick) = false ↔
      ((TrimSpace nick).head? ≠ some 64 ∨ (TrimSpace nick).length < 3 ∨
        31 < (TrimSpace nick).length ∨
        ∃ c ∈ (TrimSpace nick).tail,
          inClass [(97, 122), (65, 90), (48, 57), (95, 95)] c = false)) ∧
    (isValidNick (TrimSpace (go "@")) = false ∧ isValidNick (TrimSpace (go "@a")) = false ∧
      isValidNick (TrimSpace (go "@" ++ List.replicate 31 97)) = false ∧
      isValidNick (TrimSpace (go "@a b")) = false ∧
      isValidNick (TrimSpace (go "@" ++ List.replicate 30 97)) = true) := by
  refine ⟨?_, ?_, by decide⟩
  · constructor
    · intro h
      cases hv : isValidNick (TrimSpace nick) with
      | false => rfl
      | true =>
        simp only [Service.UpdateNick, hv, Bool.not_true] at h
        have hlog := congrArg (fun r => r.2.2.length) h
        simp [Repository.logged] at hlog
    · intro h
      simp [Service.UpdateNick, h]
  · rw [← Bool.not_eq_true, isValidNick_iff]
    constructor
    · intro h
      by_contra hcon
      simp only [not_or, not_lt, not_exists, not_and, Bool.not_eq_false, ne_eq,
        Decidable.not_not] at hcon
      obtain ⟨hhead, hlen3, hlen31, hall⟩ := hcon
      cases hs : TrimSpace nick with
      | nil => rw [hs] at hhead; simp at hhead
      | cons c t =>
        rw [hs] at hhead hlen3 hlen31 hall
        simp only [List.head?_cons, Option.some.injEq] at hhead
        subst hhead
        simp only [List.length_cons] at hlen3 hlen31
        exact h ⟨t, hs, by omega, by omega, fun x hx => hall x hx⟩
    · rintro h ⟨body, hs, h2, h30, hall⟩
      rw [hs] at h
      simp only [List.head?_cons, ne_eq, not_true_eq_false, List.length_cons, List.tail_cons,
        false_or] at h
      rcases h with h | h | ⟨c, hc, hcf⟩
      · omega
      · omega
      · rw [hall c hc] at hcf
        cases hcf

/-! ### Error mapping -/

theorem errorsIs_chain (pfxs : List GoString) (d target : DomainErr) :
    errorsIs (pfxs.foldr GoError.wrap (GoError.domain d)) target = decide (d = target) := by
  induction pfxs with
  | nil => rfl
  | cons p ps ih => simpa [errorsIs] using ih

theorem mapDomainError_domain (d : DomainErr) :
    mapDomainError (GoError.domain d) = ⟨specStatusClass d, d.text⟩ := by
  cases d <;> rfl

theorem mapDomainError_wrapped_foreign (pfx text : GoString) :
    mapDomainError (GoError.wrap pfx (GoError.foreign text))
      = ⟨Code.Internal, go "internal server error"⟩ := by
  simp [mapDomainError, errorsIs]

/-- C8, as stated, fails for an error that wraps domain errors of two classes: the
error `errors.Join(ErrInvalidNick, ErrAccountNotFound)` wraps `ErrAccountNotFound` and
is mapped to `InvalidArgument`, not `NotFound`; and
`errors.Join(ErrInvalidPhone, ErrNickAlreadyExists)` wraps `ErrNickAlreadyExists` and is
mapped to `InvalidArgument`, not `AlreadyExists`. -/
theorem C8_counterexample_joined_errors :
    errorsIs (GoError.join domain.ErrInvalidNick domain.ErrAccountNotFound)
      DomainErr.ErrAccountNotFound = true ∧
    (mapDomainError (GoError.join domain.ErrInvalidNick domain.ErrAccountNotFound)).code
      = Code.InvalidArgument ∧
    errorsIs (GoError.join domain.ErrInvalidPhone domain.ErrNickAlreadyExists)
      DomainErr.ErrNickAlreadyExists = true ∧
    (mapDomainError (GoError.join domain.ErrInvalidPhone domain.ErrNickAlreadyExists)).code
      = Code.InvalidArgument := by
  decide

/-- C8 (amended): `mapDomainError` tests the domain errors in a fixed order and the
first match decides.  Every error that is or wraps `ErrInvalidNick` or
`ErrInvalidPhone` gets `InvalidArgument`; every error that is or wraps neither of
these but `ErrNickAlreadyExists` or `ErrPhoneAlreadyExists` gets `AlreadyExists`;
every error that is or wraps none of these four but `ErrAccountNotFound` gets
`NotFound`; every other error gets `Internal` with the text `internal server error`.
In particular a domain error, bare or under any chain of `fmt.Errorf` wrappings, gets
the class of the specification's table, and every code returned is one of the four. -/
theorem C8_mapDomainError_first_match (err : GoError) :
    ((errorsIs err .ErrInvalidNick = true ∨ errorsIs err .ErrInvalidPhone = true) →
      (mapDomainError err).code = Code.InvalidArgument) ∧
    (errorsIs err .ErrInvalidNick = false → errorsIs err .ErrInvalidPhone = false →
      (errorsIs err .ErrNickAlreadyExists = true ∨ errorsIs err .ErrPhoneAlreadyExists = true) →
      (mapDomainError err).code = Code.AlreadyExists) ∧
    (errorsIs err .ErrInvalidNick = false → errorsIs err .ErrInvalidPhone = false →
      errorsIs err .ErrNickAlreadyExists = false → errorsIs err .ErrPhoneAlreadyExists = false →
      errorsIs err .ErrAccountNotFound = true →
      (mapDomainError err).code = Code.NotFound) ∧
    ((∀ d, errorsIs err d = false) →
      mapDomainError err = ⟨Code.Internal, go "internal server error"⟩) ∧
    (∀ (pfxs : List GoString) (d : DomainErr),
      err = pfxs.foldr GoError.wrap (GoError.domain d) →
      (mapDomainError err).code = specStatusClass d) ∧
    (mapDomainError err).code ∈
      [Code.InvalidArgument, Code.AlreadyExists, Code.NotFound, Code.Internal] := by
  refine ⟨?_, ?_, ?_, ?_, ?_, ?_⟩
  · rintro (h | h)
    · simp [mapDomainError, h]
    · by_cases h1 : errorsIs err .ErrInvalidNick = true <;> simp [mapDomainError, h, h1]
  · rintro h1 h2 (h | h)
    · simp [mapDomainError, h1, h2, h]
    · by_cases h3 : errorsIs err .ErrNickAlreadyExists = true <;>
        simp [mapDomainError, h1, h2, h, h3]
  · intro h1 h2 h3 h4 h5
    simp [mapDomainError, h1, h2, h3, h4, h5]
  · intro h
    simp [mapDomainError, h]
  · rintro pfxs d rfl
    cases d <;> simp [mapDomainError, errorsIs_chain, specStatusClass]
  · unfold mapDomainError
    repeat' split
    all_goals simp

/-- C8 (amended) at the storage adapter's way of wrapping: `ErrAccountNotFound` under
the wrapping `"get account: "` is, by `errors.Is`, none of the four errors tested
earlier, and is mapped to `NotFound`. -/
theorem C8_mapDomainError_first_match_witness :
    errorsIs (GoError.wrap (go "get account: ") domain.ErrAccountNotFound)
      DomainErr.ErrAccountNotFound = true ∧
    (mapDomainError (GoError.wrap (go "get account: ") domain.ErrAccountNotFound)).code
      = Code.NotFound :=
  ⟨by decide,
    (C8_mapDomainError_first_match
      (GoError.wrap (go "get account: ") domain.ErrAccountNotFound)).2.2.1
      (by decide) (by decide) (by decide) (by decide) (by decide)⟩

theorem returnedByRepository_shape (e : GoError) (h : returnedByRepository e) :
    (∃ d, e = GoError.domain d) ∨ ∃ pfx text, e = GoError.wrap pfx (GoError.foreign text) := by
  obtain ⟨σ, st, id, nick, phone, w, h | h | h | h⟩ := h
  · simp only [repository.Create] at h
    cases hr : (st.insertAccount id nick phone w).1 with
    | ok a => simp [hr] at h
    | error err =>
      simp only [hr] at h
      cases hp : err.asPq with
      | none =>
        simp only [hp, Option.some.injEq] at h
        exact Or.inr ⟨_, _, h.symm⟩
      | some cc =>
        obtain ⟨code, constraint⟩ := cc
        simp only [hp] at h
        by_cases h1 : code = go "23505"
        · by_cases h2 : constraint = go "accounts_nick_key"
          · simp only [h1, h2, if_true, Option.some.injEq] at h
            exact Or.inl ⟨_, h.symm⟩
          · by_cases h3 : constraint = go "accounts_phone_key"
            · rw [if_pos h1, if_neg h2, if_pos h3] at h
              simp only [Option.some.injEq] at h
              exact Or.inl ⟨_, h.symm⟩
            · rw [if_pos h1, if_neg h2, if_neg h3] at h
              simp only [Option.some.injEq] at h
              exact Or.inl ⟨_, h.symm⟩
        · simp only [h1, if_false, Option.some.injEq] at h
          exact Or.inr ⟨_, _, h.symm⟩
  · simp only [repository.GetByID] at h
    cases hr : (st.selectActive id w).1 with
    | ok a => simp [hr] at h
    | error err =>
      simp only [hr] at h
      by_cases h1 : err.isNoRows = true
      · simp only [h1, if_true, Option.some.injEq] at h
        exact Or.inl ⟨_, h.symm⟩
      · rw [if_neg h1] at h
        simp only [Option.some.injEq] at h
        exact Or.inr ⟨_, _, h.symm⟩
  · simp only [repository.UpdateNick] at h
    cases hr : (st.updateNick id nick w).1 with
    | ok a => simp [hr] at h
    | error err =>
      simp only [hr] at h
      by_cases h1 : err.isNoRows = true
      · simp only [h1, if_true, Option.some.injEq] at h
        exact Or.inl ⟨_, h.symm⟩
      · by_cases h2 : Option.map Prod.fst err.asPq = some (go "23505")
        · rw [if_neg h1, if_pos h2] at h
          simp only [Option.some.injEq] at h
          exact Or.inl ⟨_, h.symm⟩
        · rw [if_neg h1, if_neg h2] at h
          simp only [Option.some.injEq] at h
          exact Or.inr ⟨_, _, h.symm⟩
  · simp only [repository.Delete] at h
    cases hr : (st.softDelete id w).1 with
    | error err =>
      simp only [hr, Option.some.injEq] at h
      exact Or.inr ⟨_, _, h.symm⟩
    | ok ra =>
      cases ra with
      | error err =>
        simp only [hr, Option.some.injEq] at h
        exact Or.inr ⟨_, _, h.symm⟩
      | ok rows =>
        simp only [hr] at h
        by_cases h1 : rows = 0
        · simp only [h1, if_true, Option.some.injEq] at h
          exact Or.inl ⟨_, h.symm⟩
        · simp [h1] at h

theorem retext_Create {σ : Type} (f : GoString → GoString) (st : Store σ) (id : UUID)
    (nick phone : GoString) (w : σ) :
    (repository.Create (st.retext f) id nick phone w).1.2.map mapDomainError
      = (repository.Create st id nick phone w).1.2.map mapDomainError := by
  simp only [repository.Create, Store.retext]
  cases hr : (st.insertAccount id nick phone w).1 with
  | ok a => rfl
  | error err =>
    simp only [Except.mapError, DriverErr.retext]
    cases hp : err.asPq with
    | none => simp [DriverErr.toError, mapDomainError_wrapped_foreign]
    | some cc =>
      obtain ⟨code, constraint⟩ := cc
      by_cases h1 : code = go "23505"
      · by_cases h2 : constraint = go "accounts_nick_key"
        · simp [h1, h2]
        · by_cases h3 : constraint = go "accounts_phone_key" <;> simp [h1, h2, h3]
      · simp [h1, DriverErr.toError, mapDomainError_wrapped_foreign]

theorem retext_GetByID {σ : Type} (f : GoString → GoString) (st : Store σ) (id : UUID)
    (w : σ) :
    (repository.GetByID (st.retext f) id w).1.2.map mapDomainError
      = (repository.GetByID st id w).1.2.map mapDomainError := by
  simp only [repository.GetByID, Store.retext]
  cases hr : (st.selectActive id w).1 with
  | ok a => rfl
  | error err =>
    simp only [Except.mapError, DriverErr.retext]
    by_cases h1 : err.isNoRows = true
    · simp [h1]
    · simp [h1, DriverErr.toError, mapDomainError_wrapped_foreign]

theorem retext_UpdateNick {σ : Type} (f : GoString → GoString) (st : Store σ) (id : UUID)
    (nick : GoString) (w : σ) :
    (repository.UpdateNick (st.retext f) id nick w).1.2.map mapDomainError
      = (repository.UpdateNick st id nick w).1.2.map mapDomainError := by
  simp only [repository.UpdateNick, Store.retext]
  cases hr : (st.updateNick id nick w).1 with
  | ok a => rfl
  | error err =>
    simp only [Except.mapError, DriverErr.retext]
    by_cases h1 : err.isNoRows = true
    · simp [h1]
    · by_cases h2 : Option.map Prod.fst err.asPq = some (go "23505")
      · rw [if_neg h1, if_neg h1, if_pos h2, if_pos h2]
      · rw [if_neg h1, if_neg h1, if_neg h2, if_neg h2]
        simp [DriverErr.toError, mapDomainError_wrapped_foreign]

theorem retext_Delete {σ : Type} (f : GoString → GoString) (st : Store σ) (id : UUID)
    (w : σ) :
    (repository.Delete (st.retext f) id w).1.map mapDomainError
      = (repository.Delete st id w).1.map mapDomainError := by
  simp only [repository.Delete, Store.retext]
  cases hr : (st.softDelete id w).1 with
  | error err =>
    simp [Except.mapError, Except.map, DriverErr.toError, mapDomainError_wrapped_foreign]
  | ok ra =>
    cases ra with
    | error err =>
      simp [Except.mapError, Except.map, DriverErr.toError, mapDomainError_wrapped_foreign]
    | ok rows => simp only [Except.mapError, Except.map]

/-- C9: for every error a repository operation can return, the status message that
`mapDomainError` hands to the caller is one of six fixed strings (the five domain error
texts or `internal server error`); any two storage failures, that is returned errors
that are not domain values, produce identical statuses, whatever the texts of the
driver errors behind them; and replacing the text of every driver error of a store by
any other text changes the status of no operation. -/
theorem C9_status_message_hides_driver_text :
    (∀ e, returnedByRepository e → (mapDomainError e).message ∈ fixedMessages) ∧
    (∀ e e', returnedByRepository e → returnedByRepository e' →
      (∀ d, e ≠ GoError.domain d) → (∀ d, e' ≠ GoError.domain d) →
      mapDomainError e = mapDomainError e' ∧
      mapDomainError e = ⟨Code.Internal, go "internal server error"⟩) ∧
    (∀ (σ : Type) (f : GoString → GoString) (st : Store σ) (id : UUID)
        (nick phone : GoString) (w : σ),
      (repository.Create (st.retext f) id nick phone w).1.2.map mapDomainError
        = (repository.Create st id nick phone w).1.2.map mapDomainError ∧
      (repository.GetByID (st.retext f) id w).1.2.map mapDomainError
        = (repository.GetByID st id w).1.2.map mapDomainError ∧
      (repository.UpdateNick (st.retext f) id nick w).1.2.map mapDomainError
        = (repository.UpdateNick st id nick w).1.2.map mapDomainError ∧
      (repository.Delete (st.retext f) id w).1.map mapDomainError
        = (repository.Delete st id w).1.map mapDomainError) := by
  refine ⟨?_, ?_, ?_⟩
  · intro e he
    rcases returnedByRepository_shape e he with ⟨d, rfl⟩ | ⟨pfx, text, rfl⟩
    · rw [mapDomainError_domain]
      cases d <;> decide
    · rw [mapDomainError_wrapped_foreign]
      decide
  · intro e e' he he' hd hd'
    rcases returnedByRepository_shape e he with ⟨d, rfl⟩ | ⟨pfx, text, rfl⟩
    · exact absurd rfl (hd d)
    · rcases returnedByRepository_shape e' he' with ⟨d', rfl⟩ | ⟨pfx', text', rfl⟩
      · exact absurd rfl (hd' d')
      · rw [mapDomainError_wrapped_foreign, mapDomainError_wrapped_foreign]
        exact ⟨rfl, rfl⟩
  · intro σ f st id nick phone w
    exact ⟨retext_Create f st id nick phone w, retext_GetByID f st id w,
      retext_UpdateNick f st id nick w, retext_Delete f st id w⟩

/-- C9 at two storage failures with different driver texts: a refused connection
during `Create` and a cancelled context during `Delete` give the same status. -/
theorem C9_status_message_hides_driver_text_witness :
    returnedByRepository
      (GoError.wrap (go "create account: ")
        (GoError.foreign (go "dial tcp 10.0.0.5:5432: connect: connection refused"))) ∧
    returnedByRepository
      (GoError.wrap (go "delete account: ") (GoError.foreign (go "context canceled"))) ∧
    mapDomainError
        (GoError.wrap (go "create account: ")
          (GoError.foreign (go "dial tcp 10.0.0.5:5432: connect: connection refused")))
      = mapDomainError
        (GoError.wrap (go "delete account: ") (GoError.foreign (go "context canceled"))) :=
  have h1 : returnedByRepository
      (GoError.wrap (go "create account: ")
        (GoError.foreign (go "dial tcp 10.0.0.5:5432: connect: connection refused"))) :=
    ⟨Nat, failingStore ⟨go "dial tcp 10.0.0.5:5432: connect: connection refused", false, none⟩,
      uuidNil, [], [], 0, Or.inl rfl⟩
  have h2 : returnedByRepository
      (GoError.wrap (go "delete account: ") (GoError.foreign (go "context canceled"))) :=
    ⟨Nat, failingStore ⟨go "context canceled", false, none⟩,
      uuidNil, [], [], 0, Or.inr (Or.inr (Or.inr rfl))⟩
  ⟨h1, h2, (C9_status_message_hides_driver_text.2.1 _ _ h1 h2
    (by intro d h; cases h) (by intro d h; cases h)).1⟩

/-! ### Request handlers: identifier parsing -/

/-- C10: for every id string that the UUID parser rejects, the handlers `GetAccount`,
`UpdateNick` and `DeleteAccount` each return a nil response and the status
`InvalidArgument` with the message `invalid account id`, and leave the world as it
was, whatever the service behind the server is: neither the service nor the
repository is invoked. -/
theorem C10_handlers_reject_unparseable_id {σ : Type} (s : Server σ) (rawId nick : GoString)
    (w : σ) (h : s.uuidParse rawId = none) :
    s.GetAccount rawId w
      = ((none, some ⟨Code.InvalidArgument, go "invalid account id"⟩), w) ∧
    s.UpdateNick rawId nick w
      = ((none, some ⟨Code.InvalidArgument, go "invalid account id"⟩), w) ∧
    s.DeleteAccount rawId w
      = ((none, some ⟨Code.InvalidArgument, go "invalid account id"⟩), w) := by
  simp [Server.GetAccount, Server.UpdateNick, Server.DeleteAccount, parseID, h]

/-- C10 at the id `"not-a-uuid"`, for the server over the real service, with every
service call counted and every repository call logged: the counter stays at 0 and the
log stays empty. -/
theorem C10_handlers_reject_unparseable_id_witness :
    uuidParse (go "not-a-uuid") = none ∧
    Server.GetAccount
        ⟨(Service.New echoRepo.logged steadySources.logged).counted, uuidParse⟩
        (go "not-a-uuid") ((0, []), 0)
      = ((none, some ⟨Code.InvalidArgument, go "invalid account id"⟩), ((0, []), 0)) ∧
    Server.UpdateNick
        ⟨(Service.New echoRepo.logged steadySources.logged).counted, uuidParse⟩
        (go "not-a-uuid") (go "@valid_nick") ((0, []), 0)
      = ((none, some ⟨Code.InvalidArgument, go "invalid account id"⟩), ((0, []), 0)) ∧
    Server.DeleteAccount
        ⟨(Service.New echoRepo.logged steadySources.logged).counted, uuidParse⟩
        (go "not-a-uuid") ((0, []), 0)
      = ((none, some ⟨Code.InvalidArgument, go "invalid account id"⟩), ((0, []), 0)) :=
  ⟨by decide,
    C10_handlers_reject_unparseable_id
      ⟨(Service.New echoRepo.logged steadySources.logged).counted, uuidParse⟩
      (go "not-a-uuid") (go "@valid_nick") ((0, []), 0) (by decide)⟩

/-! ### Storage adapter: classification of failures -/

theorem wrapped_foreign_not_domain (pfx text : GoString) (d : DomainErr) :
    GoError.wrap pfx (GoError.foreign text) ≠ GoError.domain d ∧
    errorsIs (GoError.wrap pfx (GoError.foreign text)) d = false := by
  constructor
  · intro h; cases h
  · rfl

theorem Create_of_unique_violation {σ : Type} (st : Store σ) (id : UUID) (nick phone : GoString)
    (w : σ) (err : DriverErr) (constraint : GoString)
    (hfail : (st.insertAccount id nick phone w).1 = .error err)
    (hpq : err.asPq = some (go "23505", constraint)) :
    (repository.Create st id nick phone w).1
      = (Account.zero,
          some (if constraint = go "accounts_phone_key" then domain.ErrPhoneAlreadyExists
            else domain.ErrNickAlreadyExists)) := by
  simp only [repository.Create, hfail, hpq, if_true]
  by_cases h1 : constraint = go "accounts_nick_key"
  · have h2 : constraint ≠ go "accounts_phone_key" := by rw [h1]; decide
    rw [if_pos h1, if_neg h2]
  · by_cases h2 : constraint = go "accounts_phone_key"
    · rw [if_neg h1, if_pos h2, if_pos h2]
    · rw [if_neg h1, if_neg h2, if_neg h2]

theorem Create_of_other_failure {σ : Type} (st : Store σ) (id : UUID) (nick phone : GoString)
    (w : σ) (err : DriverErr)
    (hfail : (st.insertAccount id nick phone w).1 = .error err)
    (hpq : ∀ constraint, err.asPq ≠ some (go "23505", constraint)) :
    (repository.Create st id nick phone w).1
      = (Account.zero, some (GoError.wrap (go "create account: ") (GoError.foreign err.text))) := by
  simp only [repository.Create, hfail]
  cases hp : err.asPq with
  | none => rfl
  | some cc =>
    obtain ⟨code, constraint⟩ := cc
    have hne : code ≠ go "23505" := by
      intro h
      exact hpq constraint (by rw [hp, h])
    simp only [DriverErr.toError]
    rw [if_neg hne]

/-- C11: when the insert of `Repository.Create` fails with a unique-violation (SQLSTATE
23505), the returned error is `domain.ErrPhoneAlreadyExists` if and only if the
violated constraint is named `accounts_phone_key`, and `domain.ErrNickAlreadyExists`
for every other constraint name; for every other failure the returned error is the
driver error wrapped as `create account: ...`, which neither is nor wraps any of the
five domain errors.  The returned `Account` is the zero value in each case. -/
theorem C11_create_classifies_insert_failure {σ : Type} (st : Store σ) (id : UUID)
    (nick phone : GoString) (w : σ) (err : DriverErr)
    (hfail : (st.insertAccount id nick phone w).1 = .error err) :
    (∀ constraint, err.asPq = some (go "23505", constraint) →
      (repository.Create st id nick phone w).1.1 = Account.zero ∧
      ((repository.Create st id nick phone w).1.2 = some domain.ErrPhoneAlreadyExists
        ↔ constraint = go "accounts_phone_key") ∧
      (constraint ≠ go "accounts_phone_key" →
        (repository.Create st id nick phone w).1.2 = some domain.ErrNickAlreadyExists)) ∧
    ((∀ constraint, err.asPq ≠ some (go "23505", constraint)) →
      (repository.Create st id nick phone w).1
        = (Account.zero,
            some (GoError.wrap (go "create account: ") (GoError.foreign err.text))) ∧
      ∀ d, GoError.wrap (go "create account: ") (GoError.foreign err.text) ≠ GoError.domain d ∧
        errorsIs (GoError.wrap (go "create account: ") (GoError.foreign err.text)) d = false) := by
  constructor
  · intro constraint hpq
    rw [Create_of_unique_violation st id nick phone w err constraint hfail hpq]
    refine ⟨rfl, ?_, ?_⟩
    · by_cases h : constraint = go "accounts_phone_key"
      · simp [h]
      · simp [h]
    · intro h
      simp [h]
  · intro hpq
    exact ⟨Create_of_other_failure st id nick phone w err hfail hpq,
      fun d => wrapped_foreign_not_domain _ _ d⟩

/-- C11 on the accounts table: after an account with the phone `+15550000102` was
created, a second `Create` with another id and handle but the same phone fails on
`accounts_phone_key` and returns `domain.ErrPhoneAlreadyExists`; a `Create` with the id
of an existing row fails on the primary key and returns `domain.ErrNickAlreadyExists`. -/
theorem C11_create_classifies_insert_failure_witness :
    ((repository.Create tableStore (List.replicate 16 2) (go "@phone_2") (go "+15550000102")
        ⟨[{ ID := List.replicate 16 1, Nick := go "@phone_1", Phone := go "+15550000102",
            CreatedAt := 100, UpdatedAt := 100, DeletedAt := none }], 101⟩).1.2
        = some domain.ErrPhoneAlreadyExists) ∧
    (repository.Create tableStore (List.replicate 16 1) (go "@other") (go "+15550000199")
        ⟨[{ ID := List.replicate 16 1, Nick := go "@phone_1", Phone := go "+15550000102",
            CreatedAt := 100, UpdatedAt := 100, DeletedAt := none }], 101⟩).1.2
      = some domain.ErrNickAlreadyExists :=
  ⟨((C11_create_classifies_insert_failure tableStore (List.replicate 16 2) (go "@phone_2")
      (go "+15550000102")
      ⟨[{ ID := List.replicate 16 1, Nick := go "@phone_1", Phone := go "+15550000102",
          CreatedAt := 100, UpdatedAt := 100, DeletedAt := none }], 101⟩
      (uniqueViolation (go "accounts_phone_key")) (by rfl)).1
        (go "accounts_phone_key") (by decide)).2.1.mpr rfl,
    ((C11_create_classifies_insert_failure tableStore (List.replicate 16 1) (go "@other")
      (go "+15550000199")
      ⟨[{ ID := List.replicate 16 1, Nick := go "@phone_1", Phone := go "+15550000102",
          CreatedAt := 100, UpdatedAt := 100, DeletedAt := none }], 101⟩
      (uniqueViolation (go "accounts_pkey")) (by rfl)).1
        (go "accounts_pkey") (by decide)).2.2 (by decide)⟩

theorem UpdateNick_of_failure {σ : Type} (st : Store σ) (id : UUID) (nick : GoString) (w : σ)
    (err : DriverErr) (hfail : (st.updateNick id nick w).1 = .error err) :
    (repository.UpdateNick st id nick w).1
      = (Account.zero,
          some (if err.isNoRows = true then domain.ErrAccountNotFound
            else if err.asPq.map Prod.fst = some (go "23505") then domain.ErrNickAlreadyExists
            else GoError.wrap (go "update nick: ") (GoError.foreign err.text))) := by
  simp only [repository.UpdateNick, hfail, DriverErr.toError]
  by_cases h1 : err.isNoRows = true
  · rw [if_pos h1, if_pos h1]
  · by_cases h2 : err.asPq.map Prod.fst = some (go "23505")
    · rw [if_neg h1, if_neg h1, if_pos h2, if_pos h2]
    · rw [if_neg h1, if_neg h1, if_neg h2, if_neg h2]

theorem UpdateNick_of_success {σ : Type} (st : Store σ) (id : UUID) (nick : GoString) (w : σ)
    (a : Account) (hok : (st.updateNick id nick w).1 = .ok a) :
    (repository.UpdateNick st id nick w).1 = (a, none) := by
  simp only [repository.UpdateNick, hok]

theorem Table_updateNick_noRows_iff (id : UUID) (nick : GoString) (t : Table) :
    (∃ err, (Table.updateNick id nick t).1 = .error err ∧ err.isNoRows = true) ↔
      ∀ r ∈ t.rows, ¬ (r.ID = id ∧ r.DeletedAt = none) := by
  unfold Table.updateNick
  cases hf : t.rows.find? (fun r => decide (r.ID = id) && r.active) with
  | none =>
    rw [List.find?_eq_none] at hf
    constructor
    · intro _ r hr hcon
      have := hf r hr
      simp [Account.active, hcon.1, hcon.2] at this
    · intro _
      exact ⟨errNoRows, rfl, rfl⟩
  | some row =>
    have hmem := List.mem_of_find?_eq_some hf
    have hp := List.find?_some hf
    simp only [Bool.and_eq_true, decide_eq_true_eq, Account.active, Option.isNone_iff_eq_none]
      at hp
    constructor
    · rintro ⟨err, herr, hno⟩
      simp only [] at herr
      split at herr
      · simp only [Except.error.injEq] at herr
        rw [← herr] at hno
        simp [uniqueViolation] at hno
      · simp at herr
    · intro h
      exact absurd hp (h row hmem)

/-- C12: `Repository.UpdateNick` returns `domain.ErrAccountNotFound` exactly when the
update statement yields no row (`sql.ErrNoRows`), which on the accounts table means
that no active row has that id; when the statement fails otherwise, it returns
`domain.ErrNickAlreadyExists` for a unique-violation (SQLSTATE 23505) and else the
driver error wrapped as `update nick: ...`, which neither is nor wraps any of the five
domain errors; in every failing case the returned `Account` is the zero value. -/
theorem C12_updateNick_classifies_failure {σ : Type} (st : Store σ) (id : UUID)
    (nick : GoString) (w : σ) :
    ((repository.UpdateNick st id nick w).1.2 = some domain.ErrAccountNotFound ↔
      ∃ err, (st.updateNick id nick w).1 = .error err ∧ err.isNoRows = true) ∧
    (∀ err, (st.updateNick id nick w).1 = .error err → err.isNoRows = false →
      (err.asPq.map Prod.fst = some (go "23505") →
        (repository.UpdateNick st id nick w).1
          = (Account.zero, some domain.ErrNickAlreadyExists)) ∧
      (err.asPq.map Prod.fst ≠ some (go "23505") →
        (repository.UpdateNick st id nick w).1
          = (Account.zero,
              some (GoError.wrap (go "update nick: ") (GoError.foreign err.text))) ∧
        ∀ d, GoError.wrap (go "update nick: ") (GoError.foreign err.text) ≠ GoError.domain d ∧
          errorsIs (GoError.wrap (go "update nick: ") (GoError.foreign err.text)) d = false)) ∧
    ((repository.UpdateNick st id nick w).1.2 ≠ none →
      (repository.UpdateNick st id nick w).1.1 = Account.zero) ∧
    (∀ t : Table,
      (repository.UpdateNick tableStore id nick t).1.2 = some domain.ErrAccountNotFound ↔
        ∀ r ∈ t.rows, ¬ (r.ID = id ∧ r.DeletedAt = none)) := by
  have key : ∀ {τ : Type} (s : Store τ) (v : τ),
      ((repository.UpdateNick s id nick v).1.2 = some domain.ErrAccountNotFound ↔
        ∃ err, (s.updateNick id nick v).1 = .error err ∧ err.isNoRows = true) := by
    intro τ s v
    cases hr : (s.updateNick id nick v).1 with
    | ok a =>
      rw [UpdateNick_of_success s id nick v a hr]
      simp
    | error err =>
      rw [UpdateNick_of_failure s id nick v err hr]
      by_cases h1 : err.isNoRows = true
      · simp [h1]
      · have hno : err.isNoRows = false := by simpa using h1
        by_cases h2 : err.asPq.map Prod.fst = some (go "23505")
        · rw [if_neg h1, if_pos h2]
          constructor
          · intro h; cases h
          · rintro ⟨e, he, hrows⟩
            cases he
            rw [hno] at hrows
            cases hrows
        · rw [if_neg h1, if_neg h2]
          constructor
          · intro h; cases h
          · rintro ⟨e, he, hrows⟩
            cases he
            rw [hno] at hrows
            cases hrows
  refine ⟨key st w, ?_, ?_, ?_⟩
  · intro err hfail hno
    have h1 : ¬ err.isNoRows = true := by simp [hno]
    constructor
    · intro h2
      rw [UpdateNick_of_failure st id nick w err hfail, if_neg h1, if_pos h2]
    · intro h2
      rw [UpdateNick_of_failure st id nick w err hfail, if_neg h1, if_neg h2]
      exact ⟨rfl, fun d => wrapped_foreign_not_domain _ _ d⟩
  · intro hne
    cases hr : (st.updateNick id nick w).1 with
    | ok a =>
      rw [UpdateNick_of_success st id nick w a hr] at hne
      exact absurd rfl hne
    | error err => rw [UpdateNick_of_failure st id nick w err hr]
  · intro t
    rw [key tableStore t]
    exact Table_updateNick_noRows_iff id nick t

/-- C12 on the accounts table holding two active accounts: giving the second the
handle of the first is a unique-violation and returns `domain.ErrNickAlreadyExists`
with the zero `Account`. -/
theorem C12_updateNick_classifies_failure_witness :
    (repository.UpdateNick tableStore (List.replicate 16 2) (go "@nick_conflict_1")
        ⟨[{ ID := List.replicate 16 1, Nick := go "@nick_conflict_1",
            Phone := go "+15550000103", CreatedAt := 100, UpdatedAt := 100,
            DeletedAt := none },
          { ID := List.replicate 16 2, Nick := go "@nick_conflict_2",
            Phone := go "+15550000104", CreatedAt := 101, UpdatedAt := 101,
            DeletedAt := none }], 102⟩).1
      = (Account.zero, some domain.ErrNickAlreadyExists) :=
  ((C12_updateNick_classifies_failure tableStore (List.replicate 16 2)
      (go "@nick_conflict_1")
      ⟨[{ ID := List.replicate 16 1, Nick := go "@nick_conflict_1",
          Phone := go "+15550000103", CreatedAt := 100, UpdatedAt := 100,
          DeletedAt := none },
        { ID := List.replicate 16 2, Nick := go "@nick_conflict_2",
          Phone := go "+15550000104", CreatedAt := 101, UpdatedAt := 101,
          DeletedAt := none }], 102⟩).2.1
    (uniqueViolation (go "accounts_nick_key")) (by rfl) (by rfl)).1 (by decide)

/-! ### Soft deletion on the accounts table -/

theorem tableStore_Create_state (id : UUID) (nick phone : GoString) (t : Table) :
    (repository.Create tableStore id nick phone t).2 = (Table.insertAccount id nick phone t).2 := by
  simp only [repository.Create, tableStore]
  cases (Table.insertAccount id nick phone t).1 with
  | ok a => rfl
  | error err =>
    simp only []
    cases err.asPq with
    | none => rfl
    | some cc =>
      obtain ⟨code, constraint⟩ := cc
      simp only []
      repeat' split
      all_goals rfl

theorem tableStore_GetByID_state (id : UUID) (t : Table) :
    (repository.GetByID tableStore id t).2 = (Table.selectActive id t).2 := by
  simp only [repository.GetByID, tableStore]
  cases (Table.selectActive id t).1 with
  | ok a => rfl
  | error err =>
    simp only []
    split <;> rfl

theorem tableStore_UpdateNick_state (id : UUID) (nick : GoString) (t : Table) :
    (repository.UpdateNick tableStore id nick t).2 = (Table.updateNick id nick t).2 := by
  simp only [repository.UpdateNick, tableStore]
  cases (Table.updateNick id nick t).1 with
  | ok a => rfl
  | error err =>
    simp only []
    repeat' split
    all_goals rfl

theorem tableStore_Delete_state (id : UUID) (t : Table) :
    (repository.Delete tableStore id t).2 = (Table.softDelete id t).2 := by
  simp only [repository.Delete, tableStore, Table.softDelete]
  split <;> rfl

theorem spent_insertAccount (id : UUID) (t : Table) (h : t.spent id) (id' : UUID)
    (nick phone : GoString) : (Table.insertAccount id' nick phone t).2.spent id := by
  unfold Table.insertAccount
  split
  · exact h
  · split
    · exact h
    · split
      · exact h
      · rename_i hid _ _
        obtain ⟨⟨r, hr, hrid⟩, hall⟩ := h
        refine ⟨⟨r, by simp [hr], hrid⟩, ?_⟩
        intro x hx hxid
        simp only [List.mem_append, List.mem_singleton] at hx
        rcases hx with hx | hx
        · exact hall x hx hxid
        · exfalso
          subst hx
          simp only at hxid
          apply hid
          rw [List.any_eq_true]
          exact ⟨r, hr, by simp [hrid, hxid]⟩

theorem spent_selectActive (id : UUID) (t : Table) (h : t.spent id) (id' : UUID) :
    (Table.selectActive id' t).2.spent id := by
  unfold Table.selectActive
  split <;> exact h

theorem spent_map (id : UUID) (t : Table) (h : t.spent id) (f : Account → Account)
    (now' : Time) (hid : ∀ r, (f r).ID = r.ID)
    (hdel : ∀ r, r.DeletedAt ≠ none → (f r).DeletedAt ≠ none) :
    Table.spent id { rows := t.rows.map f, now := now' } := by
  obtain ⟨⟨r, hr, hrid⟩, hall⟩ := h
  refine ⟨⟨f r, List.mem_map_of_mem f hr, by rw [hid, hrid]⟩, ?_⟩
  intro x hx hxid
  simp only [List.mem_map] at hx
  obtain ⟨y, hy, rfl⟩ := hx
  rw [hid] at hxid
  exact hdel y (hall y hy hxid)

theorem spent_updateNick (id : UUID) (t : Table) (h : t.spent id) (id' : UUID)
    (nick : GoString) : (Table.updateNick id' nick t).2.spent id := by
  unfold Table.updateNick
  split
  · exact h
  · split
    · exact h
    · apply spent_map id t h
      · intro r; split <;> rfl
      · intro r hr; split
        · exact hr
        · exact hr

theorem spent_softDelete (id : UUID) (t : Table) (h : t.spent id) (id' : UUID) :
    (Table.softDelete id' t).2.spent id := by
  unfold Table.softDelete
  apply spent_map id t h
  · intro r; split <;> rfl
  · intro r hr; split
    · simp
    · exact hr

theorem spent_after_softDelete (id : UUID) (t : Table)
    (h : (t.rows.filter (fun r => decide (r.ID = id) && r.active)).length ≠ 0) :
    (Table.softDelete id t).2.spent id := by
  unfold Table.softDelete
  have hne : t.rows.filter (fun r => decide (r.ID = id) && r.active) ≠ [] := by
    intro hnil; rw [hnil] at h; exact h rfl
  obtain ⟨r, hr⟩ := List.exists_mem_of_ne_nil _ hne
  rw [List.mem_filter] at hr
  obtain ⟨hmem, hp⟩ := hr
  simp only [Bool.and_eq_true, decide_eq_true_eq] at hp
  constructor
  · refine ⟨_, List.mem_map_of_mem _ hmem, ?_⟩
    simp [hp.1, hp.2]
  · intro x hx hxid
    simp only [List.mem_map] at hx
    obtain ⟨y, _, rfl⟩ := hx
    by_cases hy : (decide (y.ID = id) && y.active) = true
    · simp [hy]
    · have hyid : y.ID = id := by simpa [hy] using hxid
      simp only [hy, Bool.false_eq_true, if_false]
      intro hnone
      apply hy
      simp [hyid, Account.active, hnone]

theorem spent_no_active (id : UUID) (t : Table) (h : t.spent id) :
    t.rows.find? (fun r => decide (r.ID = id) && r.active) = none ∧
    t.rows.filter (fun r => decide (r.ID = id) && r.active) = [] := by
  have hfalse : ∀ r ∈ t.rows, (decide (r.ID = id) && r.active) = false := by
    intro r hr
    by_cases hid : r.ID = id
    · have := h.2 r hr hid
      cases hd : r.DeletedAt with
      | none => exact absurd hd this
      | some v => simp [Account.active, hd]
    · simp [hid]
  constructor
  · rw [List.find?_eq_none]
    intro r hr
    simp [hfalse r hr]
  · rw [List.filter_eq_nil_iff]
    intro r hr
    simp [hfalse r hr]

theorem spent_GetByID (id : UUID) (t : Table) (h : t.spent id) :
    (repository.GetByID tableStore id t).1 = (Account.zero, some domain.ErrAccountNotFound) := by
  simp only [repository.GetByID, tableStore, Table.selectActive, (spent_no_active id t h).1]
  rfl

theorem spent_Delete (id : UUID) (t : Table) (h : t.spent id) :
    (repository.Delete tableStore id t).1 = some domain.ErrAccountNotFound := by
  simp only [repository.Delete, tableStore, Table.softDelete, (spent_no_active id t h).2]
  rfl

theorem spent_run (id : UUID) (op : RepoOp) (t : Table) (h : t.spent id) :
    (op.run tableStore t).spent id := by
  cases op with
  | Create id' nick phone =>
    simp only [RepoOp.run, tableStore_Create_state]
    exact spent_insertAccount id t h id' nick phone
  | GetByID id' =>
    simp only [RepoOp.run, tableStore_GetByID_state]
    exact spent_selectActive id t h id'
  | UpdateNick id' nick =>
    simp only [RepoOp.run, tableStore_UpdateNick_state]
    exact spent_updateNick id t h id' nick
  | Delete id' =>
    simp only [RepoOp.run, tableStore_Delete_state]
    exact spent_softDelete id t h id'

theorem spent_runOps (id : UUID) (ops : List RepoOp) : ∀ t : Table, t.spent id →
    (runOps tableStore ops t).spent id := by
  induction ops with
  | nil => intro t h; exact h
  | cons op ops ih =>
    intro t h
    exact ih _ (spent_run id op t h)

theorem Delete_nil_iff (id : UUID) (t : Table) :
    (repository.Delete tableStore id t).1 = none ↔
      (t.rows.filter (fun r => decide (r.ID = id) && r.active)).length ≠ 0 := by
  simp only [repository.Delete, tableStore, Table.softDelete]
  by_cases h : ((t.rows.filter (fun r => decide (r.ID = id) && r.active)).length : Int) = 0
  · rw [if_pos h]
    have h' : (t.rows.filter (fun r => decide (r.ID = id) && r.active)).length = 0 := by
      exact_mod_cast h
    simp [h']
  · rw [if_neg h]
    have h' : (t.rows.filter (fun r => decide (r.ID = id) && r.active)).length ≠ 0 := by
      intro hc; apply h; exact_mod_cast hc
    simp [h']

theorem spent_UpdateNick (id : UUID) (nick : GoString) (t : Table) (h : t.spent id) :
    (repository.UpdateNick tableStore id nick t).1
      = (Account.zero, some domain.ErrAccountNotFound) := by
  simp only [repository.UpdateNick, tableStore, Table.updateNick, (spent_no_active id t h).1]
  rfl

/-- C13: on the accounts table, whose `GetByID`, `UpdateNick` and `Delete` statements
act only on rows whose `deleted_at` is null: for every id, once `Repository.Delete(id)`
has returned nil, `Repository.GetByID(id)` returns `domain.ErrAccountNotFound`, a second
`Repository.Delete(id)` returns `domain.ErrAccountNotFound`, and after every later
sequence of `Create`, `GetByID`, `UpdateNick` and `Delete` calls, with any arguments,
`GetByID(id)`, `UpdateNick(id, _)` and `Delete(id)` still return
`domain.ErrAccountNotFound`: the id never becomes retrievable again. -/
theorem C13_delete_is_one_way (id : UUID) (t : Table)
    (h : (repository.Delete tableStore id t).1 = none) :
    (repository.GetByID tableStore id (repository.Delete tableStore id t).2).1
      = (Account.zero, some domain.ErrAccountNotFound) ∧
    (repository.Delete tableStore id (repository.Delete tableStore id t).2).1
      = some domain.ErrAccountNotFound ∧
    ∀ (ops : List RepoOp) (nick : GoString),
      (repository.GetByID tableStore id
          (runOps tableStore ops (repository.Delete tableStore id t).2)).1
        = (Account.zero, some domain.ErrAccountNotFound) ∧
      (repository.UpdateNick tableStore id nick
          (runOps tableStore ops (repository.Delete tableStore id t).2)).1
        = (Account.zero, some domain.ErrAccountNotFound) ∧
      (repository.Delete tableStore id
          (runOps tableStore ops (repository.Delete tableStore id t).2)).1
        = some domain.ErrAccountNotFound := by
  have hspent : (repository.Delete tableStore id t).2.spent id := by
    rw [tableStore_Delete_state]
    exact spent_after_softDelete id t ((Delete_nil_iff id t).1 h)
  refine ⟨spent_GetByID id _ hspent, spent_Delete id _ hspent, ?_⟩
  intro ops nick
  have hlater := spent_runOps id ops _ hspent
  exact ⟨spent_GetByID id _ hlater, spent_UpdateNick id nick _ hlater,
    spent_Delete id _ hlater⟩

/-- C13 on a table with one active account: after its deletion, creating an account
with the same id again, renaming and deleting do not bring the id back. -/
theorem C13_delete_is_one_way_witness :
    (repository.Delete tableStore (List.replicate 16 1)
        ⟨[{ ID := List.replicate 16 1, Nick := go "@repo_first", Phone := go "+15550000101",
            CreatedAt := 100, UpdatedAt := 100, DeletedAt := none }], 101⟩).1 = none ∧
    (repository.GetByID tableStore (List.replicate 16 1)
        (runOps tableStore
          [RepoOp.Create (List.replicate 16 1) (go "@repo_again") (go "+15550000177"),
           RepoOp.UpdateNick (List.replicate 16 1) (go "@repo_second"),
           RepoOp.Delete (List.replicate 16 1)]
          (repository.Delete tableStore (List.replicate 16 1)
            ⟨[{ ID := List.replicate 16 1, Nick := go "@repo_first",
                Phone := go "+15550000101", CreatedAt := 100, UpdatedAt := 100,
                DeletedAt := none }], 101⟩).2)).1
      = (Account.zero, some domain.ErrAccountNotFound) :=
  ⟨by decide,
    ((C13_delete_is_one_way (List.replicate 16 1)
      ⟨[{ ID := List.replicate 16 1, Nick := go "@repo_first", Phone := go "+15550000101",
          CreatedAt := 100, UpdatedAt := 100, DeletedAt := none }], 101⟩ (by decide)).2.2
      [RepoOp.Create (List.replicate 16 1) (go "@repo_again") (go "+15550000177"),
       RepoOp.UpdateNick (List.replicate 16 1) (go "@repo_second"),
       RepoOp.Delete (List.replicate 16 1)] (go "@any")).1⟩

/-! ### Pass-through operations of the service -/

/-- C14: `Service.GetByID(id)`, `Service.Delete(id)` and, for a nick whose trimmed form
matches the handle pattern, `Service.UpdateNick(id, nick)` each call the corresponding
repository method exactly once, with the same id (and the trimmed nick), and return
the repository's account and error unchanged. -/
theorem C14_service_passes_through {σ : Type} (repo : Repository σ) (id : UUID)
    (nick : GoString) (w : σ) :
    Service.GetByID repo.logged id (w, [])
      = ((repo.GetByID id w).1,
          ((repo.GetByID id w).2, [(Call.GetByID id, (repo.GetByID id w).1.2)])) ∧
    Service.Delete repo.logged id (w, [])
      = ((repo.Delete id w).1, ((repo.Delete id w).2, [(Call.Delete id, (repo.Delete id w).1)])) ∧
    (isValidNick (TrimSpace nick) = true →
      Service.UpdateNick repo.logged id nick (w, [])
        = ((repo.UpdateNick id (TrimSpace nick) w).1,
            ((repo.UpdateNick id (TrimSpace nick) w).2,
              [(Call.UpdateNick id (TrimSpace nick),
                (repo.UpdateNick id (TrimSpace nick) w).1.2)]))) := by
  refine ⟨rfl, rfl, ?_⟩
  intro h
  simp only [Service.UpdateNick, h, Bool.not_true, Bool.false_eq_true, if_false]
  rfl

/-- C14 at the nick `" @new_nick "` against the echoing repository (one call, with
`"@new_nick"`), and at a repository whose `Delete` reports
`domain.ErrAccountNotFound`, as in `TestDeleteForwardsRepoError`. -/
theorem C14_service_passes_through_witness :
    isValidNick (TrimSpace (go " @new_nick ")) = true ∧
    Service.UpdateNick echoRepo.logged (List.replicate 16 7) (go " @new_nick ") (0, [])
      = (({ ID := List.replicate 16 7, Nick := go "@new_nick", Phone := go "+15551234567",
            CreatedAt := 1, UpdatedAt := 2, DeletedAt := none }, none),
          (1, [(Call.UpdateNick (List.replicate 16 7) (go "@new_nick"), none)])) ∧
    Service.Delete
        (scriptedRepo [] (Account.zero, none)
          (Account.zero, some domain.ErrAccountNotFound)).logged
        (List.replicate 16 7) (0, [])
      = (some domain.ErrAccountNotFound,
          (1, [(Call.Delete (List.replicate 16 7), some domain.ErrAccountNotFound)])) :=
  ⟨by decide,
    (C14_service_passes_through echoRepo (List.replicate 16 7) (go " @new_nick ") 0).2.2
      (by decide),
    (C14_service_passes_through
      (scriptedRepo [] (Account.zero, none) (Account.zero, some domain.ErrAccountNotFound))
      (List.replicate 16 7) (go "@x") 0).2.1⟩

/-! ### The phone pattern -/

theorem inClass_one_range (lo hi c : Nat) :
    inClass [(lo, hi)] c = true ↔ lo ≤ c ∧ c ≤ hi := by
  simp [inClass]

theorem isValidPhone_iff (s : GoString) :
    isValidPhone s = true ↔
      ∃ d rest, s = 43 :: d :: rest ∧ 49 ≤ d ∧ d ≤ 57 ∧ 7 ≤ rest.length ∧ rest.length ≤ 14 ∧
        ∀ c ∈ rest, 48 ≤ c ∧ c ≤ 57 := by
  unfold isValidPhone phonePattern
  rw [matchItems_single]
  constructor
  · rintro ⟨c, t, rfl, hc, hrest⟩
    rw [matchItems_single] at hrest
    obtain ⟨d, rest, rfl, hd, hlast⟩ := hrest
    rw [matchItems_last] at hlast
    rw [inClass_one_range] at hc hd
    have hc43 : c = 43 := by omega
    subst hc43
    refine ⟨d, rest, rfl, hd.1, hd.2, hlast.1, hlast.2.1, ?_⟩
    intro x hx
    exact (inClass_one_range 48 57 x).1 (hlast.2.2 x hx)
  · rintro ⟨d, rest, rfl, hd1, hd2, h7, h14, hall⟩
    refine ⟨43, d :: rest, rfl, (inClass_one_range 43 43 43).2 ⟨le_refl _, le_refl _⟩, ?_⟩
    rw [matchItems_single]
    refine ⟨d, rest, rfl, (inClass_one_range 49 57 d).2 ⟨hd1, hd2⟩, ?_⟩
    rw [matchItems_last]
    exact ⟨h7, h14, fun x hx => (inClass_one_range 48 57 x).2 (hall x hx)⟩

/-- C15: `isValidPhone(s)` is true if and only if `s` is `+` followed by between 8 and
15 ASCII decimal digits whose first digit is 1-9, with nothing before or after; so
every accepted phone has length 9 to 16 and consists of `+` and digits only (no
trailing newline, no white space). -/
theorem C15_isValidPhone_characterised (s : GoString) :
    (isValidPhone s = true ↔
      ∃ digits : GoString, s = go "+" ++ digits ∧ 8 ≤ digits.length ∧ digits.length ≤ 15 ∧
        (∀ c ∈ digits, 48 ≤ c ∧ c ≤ 57) ∧ ∃ d, digits.head? = some d ∧ 49 ≤ d) ∧
    (isValidPhone s = true →
      9 ≤ s.length ∧ s.length ≤ 16 ∧ s.head? = some 43 ∧
      (∀ c ∈ s.tail, 48 ≤ c ∧ c ≤ 57) ∧ s.getLast? ≠ some 10 ∧ s.getLast? ≠ some 32) := by
  have hgo : ∀ digits : GoString, go "+" ++ digits = 43 :: digits := fun _ => rfl
  constructor
  · rw [isValidPhone_iff]
    constructor
    · rintro ⟨d, rest, rfl, hd1, hd2, h7, h14, hall⟩
      refine ⟨d :: rest, rfl, by simp; omega, by simp; omega, ?_, d, rfl, hd1⟩
      intro c hc
      simp only [List.mem_cons] at hc
      rcases hc with rfl | hc
      · exact ⟨by omega, hd2⟩
      · exact hall c hc
    · rintro ⟨digits, rfl, h8, h15, hall, d, hhead, hd⟩
      cases digits with
      | nil => simp at hhead
      | cons x rest =>
        simp only [List.head?_cons, Option.some.injEq] at hhead
        subst hhead
        simp only [List.length_cons] at h8 h15
        refine ⟨x, rest, hgo _, hd, (hall x (by simp)).2, by omega, by omega, ?_⟩
        intro c hc
        exact hall c (by simp [hc])
  · intro h
    rw [isValidPhone_iff] at h
    obtain ⟨d, rest, rfl, hd1, hd2, h7, h14, hall⟩ := h
    have htail : ∀ c ∈ d :: rest, 48 ≤ c ∧ c ≤ 57 := by
      intro c hc
      simp only [List.mem_cons] at hc
      rcases hc with rfl | hc
      · exact ⟨by omega, hd2⟩
      · exact hall c hc
    have hlast : ∀ x, (43 :: d :: rest).getLast? = some x → 48 ≤ x ∧ x ≤ 57 := by
      intro x hx
      have hx' : (d :: rest).getLast? = some x := by
        simpa [List.getLast?_cons_cons] using hx
      exact htail x (List.mem_of_getLast?_eq_some hx')
    refine ⟨by simp; omega, by simp; omega, rfl, htail, ?_, ?_⟩
    · intro hx
      have := hlast 10 hx
      omega
    · intro hx
      have := hlast 32 hx
      omega

/-- C15 at the phone `+15551234567`; the same digits followed by a newline, a phone of
7 digits and one of 16 digits are rejected. -/
theorem C15_isValidPhone_characterised_witness :
    isValidPhone (go "+15551234567") = true ∧
    (9 ≤ (go "+15551234567").length ∧ (go "+15551234567").length ≤ 16) ∧
    isValidPhone (go "+15551234567\n") = false ∧
    isValidPhone (go "+1234567") = false ∧
    isValidPhone (go "+1234567890123456") = false :=
  have h := (C15_isValidPhone_characterised (go "+15551234567")).2 (by decide)
  ⟨by decide, ⟨h.1, h.2.1⟩, by decide, by decide, by decide⟩

/-! ### Serialisation of an account -/

theorem hexVal_digit : ∀ n, n < 16 →
    hexVal ((go "0123456789abcdef").getD n 0) = some n := by
  decide

theorem hexDecode_hexEncode (bs : List Nat) (h : ∀ b ∈ bs, b < 256) :
    hexDecode (hexEncode bs) = some bs := by
  induction bs with
  | nil => rfl
  | cons b rest ih =>
    have hb : b < 256 := h b (by simp)
    have ih' := ih (fun x hx => h x (by simp [hx]))
    have h1 := hexVal_digit (b / 16 % 16) (Nat.mod_lt _ (by decide))
    have h2 := hexVal_digit (b % 16) (Nat.mod_lt _ (by decide))
    have hstep : hexEncode (b :: rest)
        = (go "0123456789abcdef").getD (b / 16 % 16) 0 ::
          (go "0123456789abcdef").getD (b % 16) 0 :: hexEncode rest := by
      simp [hexEncode]
    rw [hstep]
    simp only [hexDecode, h1, h2, ih']
    have : 16 * (b / 16 % 16) + b % 16 = b := by omega
    rw [this]

theorem hexEncode_append (xs ys : List Nat) :
    hexEncode (xs ++ ys) = hexEncode xs ++ hexEncode ys := by
  simp [hexEncode]

theorem hexEncode_length (xs : List Nat) : (hexEncode xs).length = 2 * xs.length := by
  induction xs with
  | nil => rfl
  | cons b rest ih =>
    have hstep : hexEncode (b :: rest)
        = (go "0123456789abcdef").getD (b / 16 % 16) 0 ::
          (go "0123456789abcdef").getD (b % 16) 0 :: hexEncode rest := by
      simp [hexEncode]
    rw [hstep]
    simp [ih]
    omega

theorem uuidParse_uuidString (u : UUID) (hlen : u.length = 16) (hbytes : ∀ b ∈ u, b < 256) :
    (uuidString u).length = 36 ∧ uuidParse (uuidString u) = some u := by
  have e1 : (hexEncode (u.take 4)).length = 8 := by
    rw [hexEncode_length]; simp [hlen]
  have e2 : (hexEncode ((u.drop 4).take 2)).length = 4 := by
    rw [hexEncode_length]; simp [hlen]
  have e3 : (hexEncode ((u.drop 6).take 2)).length = 4 := by
    rw [hexEncode_length]; simp [hlen]
  have e4 : (hexEncode ((u.drop 8).take 2)).length = 4 := by
    rw [hexEncode_length]; simp [hlen]
  have e5 : (hexEncode ((u.drop 10).take 6)).length = 12 := by
    rw [hexEncode_length]; simp [hlen]
  have hdash : go "-" = [45] := rfl
  obtain ⟨A, hA⟩ : ∃ A, A = hexEncode (u.take 4) := ⟨_, rfl⟩
  obtain ⟨B, hB⟩ : ∃ B, B = hexEncode ((u.drop 4).take 2) := ⟨_, rfl⟩
  obtain ⟨C, hC⟩ : ∃ C, C = hexEncode ((u.drop 6).take 2) := ⟨_, rfl⟩
  obtain ⟨D, hD⟩ : ∃ D, D = hexEncode ((u.drop 8).take 2) := ⟨_, rfl⟩
  obtain ⟨E, hE⟩ : ∃ E, E = hexEncode ((u.drop 10).take 6) := ⟨_, rfl⟩
  rw [← hA] at e1
  rw [← hB] at e2
  rw [← hC] at e3
  rw [← hD] at e4
  rw [← hE] at e5
  have hs : uuidString u = A ++ (45 :: (B ++ (45 :: (C ++ (45 :: (D ++ (45 :: E))))))) := by
    simp [uuidString, hdash, ← hA, ← hB, ← hC, ← hD, ← hE]
  have hl : (uuidString u).length = 36 := by
    rw [hs]; simp [e1, e2, e3, e4, e5]
  refine ⟨hl, ?_⟩
  have hparts : A ++ B ++ C ++ D ++ E = hexEncode u := by
    rw [hA, hB, hC, hD, hE, ← hexEncode_append, ← hexEncode_append, ← hexEncode_append,
      ← hexEncode_append]
    congr 1
    have h1 : u = u.take 4 ++ u.drop 4 := (List.take_append_drop 4 u).symm
    have h2 : u.drop 4 = (u.drop 4).take 2 ++ u.drop 6 := by
      rw [show u.drop 6 = (u.drop 4).drop 2 by simp]; exact (List.take_append_drop 2 _).symm
    have h3 : u.drop 6 = (u.drop 6).take 2 ++ u.drop 8 := by
      rw [show u.drop 8 = (u.drop 6).drop 2 by simp]; exact (List.take_append_drop 2 _).symm
    have h4 : u.drop 8 = (u.drop 8).take 2 ++ u.drop 10 := by
      rw [show u.drop 10 = (u.drop 8).drop 2 by simp]; exact (List.take_append_drop 2 _).symm
    have h5 : (u.drop 10).take 6 = u.drop 10 := by
      apply List.take_of_length_le; simp [hlen]
    rw [h5]
    conv_rhs => rw [h1, h2, h3, h4]
    simp [List.append_assoc]
  unfold uuidParse
  rw [if_pos hl, hs]
  unfold uuidParseDashed
  have hx : ∀ (X Y : List Nat) (n : Nat), X.length = n → (X ++ Y).take n = X ∧
      (X ++ 45 :: Y).drop (n + 1) = Y ∧ (X ++ 45 :: Y).getD n 0 = 45 := by
    intro X Y n hX
    subst hX
    refine ⟨by simp, by simp, ?_⟩
    rw [List.getD_append_right _ _ _ _ (le_refl _)]
    simp
  have hA8 := hx A (45 :: (B ++ (45 :: (C ++ (45 :: (D ++ (45 :: E))))))) 8 e1
  have hA8' := hx A (B ++ (45 :: (C ++ (45 :: (D ++ (45 :: E)))))) 8 e1
  have hB4 := hx B (45 :: (C ++ (45 :: (D ++ (45 :: E))))) 4 e2
  have hB4' := hx B (C ++ (45 :: (D ++ (45 :: E)))) 4 e2
  have hC4 := hx C (45 :: (D ++ (45 :: E))) 4 e3
  have hC4' := hx C (D ++ (45 :: E)) 4 e3
  have hD4 := hx D (45 :: E) 4 e4
  have hD4' := hx D E 4 e4
  have d9 : (A ++ (45 :: (B ++ (45 :: (C ++ (45 :: (D ++ (45 :: E)))))))).drop 9
      = B ++ (45 :: (C ++ (45 :: (D ++ (45 :: E))))) := hA8'.2.1
  have d14 : (A ++ (45 :: (B ++ (45 :: (C ++ (45 :: (D ++ (45 :: E)))))))).drop 14
      = C ++ (45 :: (D ++ (45 :: E))) := by
    rw [show 14 = 9 + 5 by rfl, ← List.drop_drop, d9]; exact hB4'.2.1
  have d19 : (A ++ (45 :: (B ++ (45 :: (C ++ (45 :: (D ++ (45 :: E)))))))).drop 19
      = D ++ (45 :: E) := by
    rw [show 19 = 14 + 5 by rfl, ← List.drop_drop, d14]; exact hC4'.2.1
  have d24 : (A ++ (45 :: (B ++ (45 :: (C ++ (45 :: (D ++ (45 :: E)))))))).drop 24 = E := by
    rw [show 24 = 19 + 5 by rfl, ← List.drop_drop, d19]; exact hD4'.2.1
  have getD_drop : ∀ (l : List Nat) (i j : Nat), l.getD (i + j) 0 = (l.drop i).getD j 0 := by
    intro l i j
    simp [List.getD_eq_getElem?_getD, List.getElem?_drop]
  have g8 := hA8'.2.2
  have g13 : (A ++ (45 :: (B ++ (45 :: (C ++ (45 :: (D ++ (45 :: E)))))))).getD 13 0 = 45 := by
    rw [show 13 = 9 + 4 by rfl, getD_drop, d9]; exact hB4'.2.2
  have g18 : (A ++ (45 :: (B ++ (45 :: (C ++ (45 :: (D ++ (45 :: E)))))))).getD 18 0 = 45 := by
    rw [show 18 = 14 + 4 by rfl, getD_drop, d14]; exact hC4'.2.2
  have g23 : (A ++ (45 :: (B ++ (45 :: (C ++ (45 :: (D ++ (45 :: E)))))))).getD 23 0 = 45 := by
    rw [show 23 = 19 + 4 by rfl, getD_drop, d19]; exact hD4'.2.2
  rw [if_pos ⟨g8, g13, g18, g23⟩, hA8.1, d9, d14, d19, d24, hB4.1, hC4.1, hD4.1]
  have h12 : E.take 12 = E := List.take_of_length_le (by omega)
  rw [h12, hparts]
  exact hexDecode_hexEncode u hbytes

/-- C16: for every `domain.Account` `a`, `toProtoAccount(a)` has `Id` equal to the
textual form of `a.ID` (which parses back to `a.ID`), `Nick` equal to `a.Nick`, `Phone`
equal to `a.Phone`, and a `DeletedAt` field that is absent if and only if `a.DeletedAt`
is nil; hence a successful `GetAccount`, where the repository returned `a` with a nil
error, responds with exactly `toProtoAccount(a)` and a nil error. -/
theorem C16_toProtoAccount_carries_fields (a : Account) :
    (toProtoAccount a).Id = uuidString a.ID ∧
    (toProtoAccount a).Nick = a.Nick ∧
    (toProtoAccount a).Phone = a.Phone ∧
    ((toProtoAccount a).DeletedAt = none ↔ a.DeletedAt = none) ∧
    (a.ID.length = 16 → (∀ b ∈ a.ID, b < 256) →
      uuidParse (toProtoAccount a).Id = some a.ID) ∧
    (∀ (σ : Type) (repo : Repository σ) (src : Sources σ) (parse : GoString → Option UUID)
        (rawId : GoString) (id : UUID) (w : σ),
      parse rawId = some id → (repo.GetByID id w).1 = (a, none) →
      (Server.GetAccount ⟨Service.New repo src, parse⟩ rawId w).1
        = (some ⟨toProtoAccount a⟩, none)) := by
  refine ⟨rfl, rfl, rfl, ?_, ?_, ?_⟩
  · cases h : a.DeletedAt <;> simp [toProtoAccount, h]
  · intro hlen hbytes
    exact (uuidParse_uuidString a.ID hlen hbytes).2
  · intro σ repo src parse rawId id w hparse hrepo
    simp only [Server.GetAccount, parseID, hparse, Service.New, Service.GetByID, hrepo]

/-- C16 for the account of `TestGetAccountGRPCSuccess`: the request carries the text
of the account's id, the repository returns the account, and the response carries the
same id text, `@john` and `+15551234567`, with no deletion timestamp. -/
theorem C16_toProtoAccount_carries_fields_witness :
    (Server.GetAccount
        ⟨Service.New
          (scriptedRepo [] (Account.zero, none)
            ({ ID := List.replicate 16 171, Nick := go "@john", Phone := go "+15551234567",
               CreatedAt := 1700000000000000000, UpdatedAt := 1700000000000000000,
               DeletedAt := none }, none))
          steadySources, uuidParse⟩
        (go "abababab-abab-abab-abab-abababababab") 0).1
      = (some ⟨{ Id := go "abababab-abab-abab-abab-abababababab", Nick := go "@john",
                 Phone := go "+15551234567",
                 CreatedAt := some (timestampNew 1700000000000000000),
                 UpdatedAt := some (timestampNew 1700000000000000000),
                 DeletedAt := none }⟩, none) :=
  (C16_toProtoAccount_carries_fields
      { ID := List.replicate 16 171, Nick := go "@john", Phone := go "+15551234567",
        CreatedAt := 1700000000000000000, UpdatedAt := 1700000000000000000,
        DeletedAt := none }).2.2.2.2.2 Nat
    (scriptedRepo [] (Account.zero, none)
      ({ ID := List.replicate 16 171, Nick := go "@john", Phone := go "+15551234567",
         CreatedAt := 1700000000000000000, UpdatedAt := 1700000000000000000,
         DeletedAt := none }, none))
    steadySources uuidParse (go "abababab-abab-abab-abab-abababababab")
    (List.replicate 16 171) 0 (by decide) rfl

/-! ### Distribution of the generated symbols -/

/-- C17 fails on the code: the 256 byte values do not spread evenly over the 36
symbols.  The symbols `a`, `b`, `c`, `d` each have 8 byte values mapping to them and
every other symbol has 7 (256 = 7 * 36 + 4), so for a uniformly distributed byte the
symbol `a` is chosen with probability 8/256 and the symbol `e` with probability 7/256. -/
theorem C17_symbol_weights_differ :
    symbolWeight 97 = 8 ∧ symbolWeight 101 = 7 ∧
    alphabet.map symbolWeight = List.replicate 4 8 ++ List.replicate 32 7 ∧
    ¬ (∀ c ∈ alphabet, ∀ c' ∈ alphabet, symbolWeight c = symbolWeight c') := by
  have h : alphabet.map symbolWeight = List.replicate 4 8 ++ List.replicate 32 7 := by
    decide
  have ha : symbolWeight 97 = 8 := by decide
  have he : symbolWeight 101 = 7 := by decide
  refine ⟨ha, he, h, ?_⟩
  intro hall
  have := hall 97 (by decide) 101 (by decide)
  rw [ha, he] at this
  exact absurd this (by decide)

/-! ### Observations of the storage adapter -/

theorem outcomeLabel_wrapped (pfx text : GoString) :
    outcomeLabel (some (GoError.wrap pfx (GoError.foreign text))) = go "error" := by
  simp [outcomeLabel]

theorem Create_observes {σ : Type} (st : Store σ) (id : UUID) (nick phone : GoString)
    (w : σ) (m : Option Metrics) :
    (repository.Create st.withMetrics id nick phone (w, m)).2
      = ((st.insertAccount id nick phone w).2,
          Metrics.ObserveDB m (go "create")
            (outcomeLabel (repository.Create st.withMetrics id nick phone (w, m)).1.2)) := by
  simp only [repository.Create, Store.withMetrics]
  cases hr : (st.insertAccount id nick phone w).1 with
  | ok a => rfl
  | error err =>
    simp only []
    cases hp : err.asPq with
    | none =>
      simp only [DriverErr.toError, outcomeLabel_wrapped]
    | some cc =>
      obtain ⟨code, constraint⟩ := cc
      simp only []
      by_cases h1 : code = go "23505"
      · by_cases h2 : constraint = go "accounts_nick_key"
        · rw [if_pos h1, if_pos h2]; rfl
        · by_cases h3 : constraint = go "accounts_phone_key"
          · rw [if_pos h1, if_neg h2, if_pos h3]; rfl
          · rw [if_pos h1, if_neg h2, if_neg h3]; rfl
      · rw [if_neg h1]
        simp only [DriverErr.toError, outcomeLabel_wrapped]

theorem GetByID_observes {σ : Type} (st : Store σ) (id : UUID) (w : σ) (m : Option Metrics) :
    (repository.GetByID st.withMetrics id (w, m)).2
      = ((st.selectActive id w).2,
          Metrics.ObserveDB m (go "get_by_id")
            (outcomeLabel (repository.GetByID st.withMetrics id (w, m)).1.2)) := by
  simp only [repository.GetByID, Store.withMetrics]
  cases hr : (st.selectActive id w).1 with
  | ok a => rfl
  | error err =>
    simp only []
    by_cases h1 : err.isNoRows = true
    · rw [if_pos h1]; rfl
    · rw [if_neg h1]
      simp only [DriverErr.toError, outcomeLabel_wrapped]

theorem UpdateNick_observes {σ : Type} (st : Store σ) (id : UUID) (nick : GoString) (w : σ)
    (m : Option Metrics) :
    (repository.UpdateNick st.withMetrics id nick (w, m)).2
      = ((st.updateNick id nick w).2,
          Metrics.ObserveDB m (go "update_nick")
            (outcomeLabel (repository.UpdateNick st.withMetrics id nick (w, m)).1.2)) := by
  simp only [repository.UpdateNick, Store.withMetrics]
  cases hr : (st.updateNick id nick w).1 with
  | ok a => rfl
  | error err =>
    simp only []
    by_cases h1 : err.isNoRows = true
    · rw [if_pos h1]; rfl
    · by_cases h2 : err.asPq.map Prod.fst = some (go "23505")
      · rw [if_neg h1, if_pos h2]; rfl
      · rw [if_neg h1, if_neg h2]
        simp only [DriverErr.toError, outcomeLabel_wrapped]

theorem Delete_observes {σ : Type} (st : Store σ) (id : UUID) (w : σ) (m : Option Metrics) :
    (repository.Delete st.withMetrics id (w, m)).2
      = ((st.softDelete id w).2,
          Metrics.ObserveDB m (go "delete")
            (outcomeLabel (repository.Delete st.withMetrics id (w, m)).1)) := by
  simp only [repository.Delete, Store.withMetrics]
  cases hr : (st.softDelete id w).1 with
  | error err => simp only [DriverErr.toError, outcomeLabel_wrapped]
  | ok ra =>
    cases ra with
    | error err => simp only [DriverErr.toError, outcomeLabel_wrapped]
    | ok rows =>
      simp only []
      by_cases h1 : rows = 0
      · rw [if_pos h1]; rfl
      · rw [if_neg h1]; rfl

/-- C18: every call to `Repository.Create`, `GetByID`, `UpdateNick` or `Delete` makes
exactly one `ObserveDB` observation, on every exit path, with the name of the
operation (`create`, `get_by_id`, `update_nick`, `delete`) and the outcome label of
the returned error: `ok` exactly when the error is nil, `conflict` exactly when it is
the handle or the phone conflict error, `not_found` exactly when it is
`domain.ErrAccountNotFound`, and `error` otherwise.  With the metrics of
`NewMetrics` the query counter and the duration histogram each gain that one entry
and nothing else changes; a nil `*Metrics` takes the call and keeps nothing. -/
theorem C18_adapter_observes_once {σ : Type} (st : Store σ) (id : UUID)
    (nick phone : GoString) (w : σ) (m : Metrics) :
    ((repository.Create st.withMetrics id nick phone (w, some m)).2.2
      = some { m with
          dbQueriesTotal := m.dbQueriesTotal ++ [(go "create",
            outcomeLabel (repository.Create st.withMetrics id nick phone (w, some m)).1.2)]
          dbQueryDuration := m.dbQueryDuration ++ [(go "create",
            outcomeLabel (repository.Create st.withMetrics id nick phone (w, some m)).1.2)] }) ∧
    ((repository.GetByID st.withMetrics id (w, some m)).2.2
      = some { m with
          dbQueriesTotal := m.dbQueriesTotal ++ [(go "get_by_id",
            outcomeLabel (repository.GetByID st.withMetrics id (w, some m)).1.2)]
          dbQueryDuration := m.dbQueryDuration ++ [(go "get_by_id",
            outcomeLabel (repository.GetByID st.withMetrics id (w, some m)).1.2)] }) ∧
    ((repository.UpdateNick st.withMetrics id nick (w, some m)).2.2
      = some { m with
          dbQueriesTotal := m.dbQueriesTotal ++ [(go "update_nick",
            outcomeLabel (repository.UpdateNick st.withMetrics id nick (w, some m)).1.2)]
          dbQueryDuration := m.dbQueryDuration ++ [(go "update_nick",
            outcomeLabel (repository.UpdateNick st.withMetrics id nick (w, some m)).1.2)] }) ∧
    ((repository.Delete st.withMetrics id (w, some m)).2.2
      = some { m with
          dbQueriesTotal := m.dbQueriesTotal ++ [(go "delete",
            outcomeLabel (repository.Delete st.withMetrics id (w, some m)).1)]
          dbQueryDuration := m.dbQueryDuration ++ [(go "delete",
            outcomeLabel (repository.Delete st.withMetrics id (w, some m)).1)] }) ∧
    ((repository.Create st.withMetrics id nick phone (w, none)).2.2 = none ∧
      (repository.GetByID st.withMetrics id (w, none)).2.2 = none ∧
      (repository.UpdateNick st.withMetrics id nick (w, none)).2.2 = none ∧
      (repository.Delete st.withMetrics id (w, none)).2.2 = none) ∧
    (∀ e : Option GoError,
      (outcomeLabel e = go "ok" ↔ e = none) ∧
      (outcomeLabel e = go "conflict" ↔
        e = some domain.ErrNickAlreadyExists ∨ e = some domain.ErrPhoneAlreadyExists) ∧
      (outcomeLabel e = go "not_found" ↔ e = some domain.ErrAccountNotFound) ∧
      (outcomeLabel e = go "error" ↔
        e ≠ none ∧ e ≠ some domain.ErrNickAlreadyExists ∧
        e ≠ some domain.ErrPhoneAlreadyExists ∧ e ≠ some domain.ErrAccountNotFound)) := by
  refine ⟨?_, ?_, ?_, ?_, ⟨?_, ?_, ?_, ?_⟩, ?_⟩
  · rw [Create_observes]; rfl
  · rw [GetByID_observes]; rfl
  · rw [UpdateNick_observes]; rfl
  · rw [Delete_observes]; rfl
  · rw [Create_observes]; rfl
  · rw [GetByID_observes]; rfl
  · rw [UpdateNick_observes]; rfl
  · rw [Delete_observes]; rfl
  · intro e
    have hoc : go "ok" ≠ go "conflict" := by decide
    have hon : go "ok" ≠ go "not_found" := by decide
    have hoe : go "ok" ≠ go "error" := by decide
    have hcn : go "conflict" ≠ go "not_found" := by decide
    have hce : go "conflict" ≠ go "error" := by decide
    have hne : go "not_found" ≠ go "error" := by decide
    cases e with
    | none =>
      simp only [outcomeLabel]
      exact ⟨by simp, by simp [hoc], by simp [hon], by simp [hoe]⟩
    | some err =>
      simp only [outcomeLabel]
      by_cases h1 : err = domain.ErrNickAlreadyExists
      · subst h1
        simp [hoc.symm, hcn, hce]
      · by_cases h2 : err = domain.ErrPhoneAlreadyExists
        · subst h2
          simp [hoc.symm, hcn, hce]
        · by_cases h3 : err = domain.ErrAccountNotFound
          · subst h3
            simp [hon.symm, hcn.symm, hne]
          · simp [h1, h2, h3, hoe.symm, hce.symm, hne.symm]

/-! ### The in-flight gauge of the interceptor -/

/-- C19: for every call through `UnaryMetricsInterceptor` with metrics whose gauge
stands at `g`, the handler runs with the gauge at `g + 1` and everything else as
before, and when the call exits the gauge stands one below where the handler left it,
whether the handler returned a response, returned an error or panicked; the outcome
of the handler is passed on unchanged.  So when the handler leaves the gauge where it
found it, the gauge is back at `g` after the call, and it never stood below `g`. -/
theorem C19_in_flight_gauge_balanced {σ ρ : Type} (logInfo : GoString → GoString → σ → σ)
    (fullMethod : GoString)
    (handler : σ × Option Metrics → HandlerOutcome ρ × (σ × Option Metrics))
    (s : σ) (m : Metrics) :
    (UnaryMetricsInterceptor logInfo fullMethod handler (s, some m)).1
      = (handler (s, some { m with grpcRequestsInFlight := m.grpcRequestsInFlight + 1 })).1 ∧
    (∀ m' : Metrics,
      (handler (s, some { m with grpcRequestsInFlight := m.grpcRequestsInFlight + 1 })).2.2
        = some m' →
      ((UnaryMetricsInterceptor logInfo fullMethod handler (s, some m)).2.2.map
          Metrics.grpcRequestsInFlight = some (m'.grpcRequestsInFlight - 1)) ∧
      (m'.grpcRequestsInFlight = m.grpcRequestsInFlight + 1 →
        (UnaryMetricsInterceptor logInfo fullMethod handler (s, some m)).2.2.map
            Metrics.grpcRequestsInFlight = some m.grpcRequestsInFlight ∧
        m.grpcRequestsInFlight ≤ m.grpcRequestsInFlight + 1)) := by
  have hinc : Metrics.IncRPCInFlight (some m)
      = some { m with grpcRequestsInFlight := m.grpcRequestsInFlight + 1 } := rfl
  have hfinal : ∀ m' : Metrics,
      (handler (s, some { m with grpcRequestsInFlight := m.grpcRequestsInFlight + 1 })).2.2
        = some m' →
      (UnaryMetricsInterceptor logInfo fullMethod handler (s, some m)).2.2.map
          Metrics.grpcRequestsInFlight = some (m'.grpcRequestsInFlight - 1) := by
    intro m' hm'
    simp only [UnaryMetricsInterceptor, hinc]
    cases ho : (handler (s, some { m with grpcRequestsInFlight := m.grpcRequestsInFlight + 1 })).1 with
    | panicked value => simp [hm', Metrics.DecRPCInFlight]
    | returned resp err => simp [hm', Metrics.DecRPCInFlight, Metrics.ObserveRPC]
  refine ⟨?_, ?_⟩
  · simp only [UnaryMetricsInterceptor, hinc]
    cases ho : (handler (s, some { m with grpcRequestsInFlight := m.grpcRequestsInFlight + 1 })).1 with
    | panicked value => rfl
    | returned resp err => rfl
  · intro m' hm'
    refine ⟨hfinal m' hm', ?_⟩
    intro hkeep
    refine ⟨?_, by omega⟩
    rw [hfinal m' hm', hkeep]
    simp

/-- C19 at a handler that panics while the gauge stood at 3 (the gauge is back at 3),
and at a handler that returns the status `NotFound` (one request observation with the
labels `GetAccount` and `NotFound`, one log line, the gauge back at 3). -/
theorem C19_in_flight_gauge_balanced_witness :
    ((UnaryMetricsInterceptor (fun _ _ (n : Nat) => n + 1)
        (go "/account.v1.AccountService/GetAccount")
        (fun w => ((HandlerOutcome.panicked (go "boom") : HandlerOutcome Unit), w))
        (0, some ⟨[], [], 3, [], []⟩)).2.2.map Metrics.grpcRequestsInFlight = some 3) ∧
    ((UnaryMetricsInterceptor (fun _ _ (n : Nat) => n + 1)
        (go "/account.v1.AccountService/GetAccount")
        (fun w => ((HandlerOutcome.returned (some ())
          (some (RpcError.status ⟨Code.NotFound, go "account not found"⟩)) :
            HandlerOutcome Unit), w))
        (0, some ⟨[], [], 3, [], []⟩)).2
      = (1, some ⟨[(go "GetAccount", go "NotFound")], [(go "GetAccount", go "NotFound")], 3,
          [], []⟩)) :=
  ⟨((C19_in_flight_gauge_balanced (fun _ _ (n : Nat) => n + 1)
      (go "/account.v1.AccountService/GetAccount")
      (fun w => ((HandlerOutcome.panicked (go "boom") : HandlerOutcome Unit), w))
      0 ⟨[], [], 3, [], []⟩).2 ⟨[], [], 4, [], []⟩ rfl).2 rfl |>.1,
    by decide⟩

/-! ### Retry only on the identical error -/

theorem createLoop_retries {σ : Type} (repo : Repository σ) (src : Sources σ) (id : UUID)
    (phone : GoString) (n : Nat) : ∀ (w : σ) (i : Nat),
    i + 1 < (createLoop repo.logged src.logged id phone n (w, [])).2.2.length →
    ((createLoop repo.logged src.logged id phone n (w, [])).2.2[i]?).map Prod.snd
      = some (some domain.ErrNickAlreadyExists) := by
  induction n with
  | zero => intro w i hi; simp [createLoop] at hi
  | succ n ih =>
    intro w i hi
    rw [createLoop_logged_succ] at hi ⊢
    cases hg : (generateNick src w).1.2 with
    | some err => simp [hg] at hi
    | none =>
      simp only [hg] at hi ⊢
      cases hr : (repo.Create id (generateNick src w).1.1 phone (generateNick src w).2).1.2 with
      | none => simp [hr] at hi
      | some err =>
        simp only [hr] at hi ⊢
        by_cases he : err = domain.ErrNickAlreadyExists
        · simp only [he, if_true] at hi ⊢
          cases i with
          | zero => simp
          | succ j =>
            rw [List.getElem?_cons_succ]
            apply ih
            simpa using hi
        · simp [he] at hi

theorem errorsIs_wrap_chain_self (pfxs : List GoString) (d : DomainErr) :
    errorsIs (pfxs.foldr GoError.wrap (GoError.domain d)) d = true := by
  rw [errorsIs_chain]
  simp

/-- C20: `Service.Create` retries only when the repository's error is identical to
`domain.ErrNickAlreadyExists`: in every run, each repository call but the last returned
exactly that value.  If the first `Repository.Create` returns an error that merely
wraps `domain.ErrNickAlreadyExists` (under one or more `fmt.Errorf` wrappings),
`Service.Create` makes no further attempt and returns that wrapped error, with the
zero `Account`, after exactly one repository call, although `errors.Is` finds
`domain.ErrNickAlreadyExists` in it and `mapDomainError` classifies it as
`AlreadyExists`. -/
theorem C20_create_retries_only_identical_error {σ : Type} (repo : Repository σ)
    (src : Sources σ) (phone : GoString) (w : σ) (pfx : GoString) (pfxs : List GoString)
    (hphone : isValidPhone (TrimSpace phone) = true)
    (hfirst : ((Service.Create repo.logged src.logged phone (w, [])).2.2[0]?).map Prod.snd
      = some (some ((pfx :: pfxs).foldr GoError.wrap domain.ErrNickAlreadyExists))) :
    (Service.Create repo.logged src.logged phone (w, [])).1
      = (Account.zero, some ((pfx :: pfxs).foldr GoError.wrap domain.ErrNickAlreadyExists)) ∧
    (Service.Create repo.logged src.logged phone (w, [])).2.2.length = 1 ∧
    (pfx :: pfxs).foldr GoError.wrap domain.ErrNickAlreadyExists
      ≠ domain.ErrNickAlreadyExists ∧
    errorsIs ((pfx :: pfxs).foldr GoError.wrap domain.ErrNickAlreadyExists)
      DomainErr.ErrNickAlreadyExists = true ∧
    (mapDomainError ((pfx :: pfxs).foldr GoError.wrap domain.ErrNickAlreadyExists)).code
      = Code.AlreadyExists ∧
    (∀ i, i + 1 < (Service.Create repo.logged src.logged phone (w, [])).2.2.length →
      ((Service.Create repo.logged src.logged phone (w, [])).2.2[i]?).map Prod.snd
        = some (some domain.ErrNickAlreadyExists)) := by
  have hne : (pfx :: pfxs).foldr GoError.wrap domain.ErrNickAlreadyExists
      ≠ domain.ErrNickAlreadyExists := by
    intro h
    simp only [List.foldr_cons] at h
    cases h
  rw [Create_logged_valid repo src phone w hphone] at hfirst ⊢
  have h := createLoop_stops repo src (src.uuidNew w).1 (TrimSpace phone)
    maxNickGenerationAttempts 1 (src.uuidNew w).2 _ (le_refl _)
    (fun i hi => by omega) hfirst hne
  refine ⟨h.1, h.2, hne, errorsIs_wrap_chain_self _ _, ?_, ?_⟩
  · have := errorsIs_chain (pfx :: pfxs) DomainErr.ErrNickAlreadyExists
    simp only [mapDomainError, errorsIs_chain]
    simp
  · intro i hi
    exact createLoop_retries repo src _ _ maxNickGenerationAttempts _ i hi

/-- C20 at a repository whose first `Create` returns `domain.ErrNickAlreadyExists`
wrapped as `store: ...`: one call, the wrapped error comes back, and its status class
is `AlreadyExists`. -/
theorem C20_create_retries_only_identical_error_witness :
    (Service.Create
        (scriptedRepo
          [(Account.zero, some (GoError.wrap (go "store: ") domain.ErrNickAlreadyExists))]
          (Account.zero, none) (Account.zero, none)).logged
        steadySources.logged (go "+15551234567") (0, [])).1
      = (Account.zero, some (GoError.wrap (go "store: ") domain.ErrNickAlreadyExists)) ∧
    (Service.Create
        (scriptedRepo
          [(Account.zero, some (GoError.wrap (go "store: ") domain.ErrNickAlreadyExists))]
          (Account.zero, none) (Account.zero, none)).logged
        steadySources.logged (go "+15551234567") (0, [])).2.2.length = 1 ∧
    (mapDomainError (GoError.wrap (go "store: ") domain.ErrNickAlreadyExists)).code
      = Code.AlreadyExists :=
  have h := C20_create_retries_only_identical_error
    (scriptedRepo
      [(Account.zero, some (GoError.wrap (go "store: ") domain.ErrNickAlreadyExists))]
      (Account.zero, none) (Account.zero, none))
    steadySources (go "+15551234567") 0 (go "store: ") [] (by decide) (by decide)
  ⟨h.1, h.2.1, h.2.2.2.2.1⟩

end AccountSvc
